import Mathlib

/-!
Verification of the schema-compiler backend of `angular-jrpc-proto-gen`:
a shallow embedding of `src/ts/message.ts` (message rendering) and
`src/service/jsonrpc.ts` (JSON-RPC service/stub rendering), together with
theorems about the rendered output.

External collaborators of those two files (the schema-graph `ExportMap`,
the `Printer`/`CodePrinter` text emitters, the utility functions of
`util.ts`, the field-type table of `FieldTypes.ts`, the enum/oneof/extension
sub-renderers and the well-known-type path table) are not part of the two
source files; they are modelled from the specification, as marked on each
definition.
-/

namespace ProtoGen

/-! ## String helpers (character-list based, so that everything computes) -/
/-- Drop the first `n` characters of a string (the source's `slice(n)`). -/
def strDrop (s : String) (n : Nat) : String := ⟨s.data.drop n⟩

/-- Drop the last `n` characters of a string. -/
def strDropRight (s : String) (n : Nat) : String := ⟨s.data.take (s.data.length - n)⟩

/-- `true` iff `suffix` is a suffix of `s`. -/
def strEndsWith (s sfx : String) : Bool := sfx.data.isSuffixOf s.data

/-- `true` iff `pre` is a prefix of `s` (the source's `indexOf(pre) === 0`). -/
def strStartsWith (s pre : String) : Bool := pre.data.isPrefixOf s.data

/-- Number of occurrences of character `c` in `s`. -/
def countChar (s : String) (c : Char) : Nat := s.data.count c

/-- Concatenation of a list of text fragments. -/
def concatTexts : List String → String
  | [] => ""
  | s :: rest => s ++ concatTexts rest

/-! ## Wire types, labels and options (from `google-protobuf` descriptors) -/
/-- Field wire types of `FieldDescriptorProto.Type`. -/
inductive FieldType where
  | TYPE_DOUBLE | TYPE_FLOAT | TYPE_INT64 | TYPE_UINT64 | TYPE_INT32
  | TYPE_FIXED64 | TYPE_FIXED32 | TYPE_BOOL | TYPE_STRING | TYPE_GROUP
  | TYPE_MESSAGE | TYPE_BYTES | TYPE_UINT32 | TYPE_ENUM
  | TYPE_SFIXED32 | TYPE_SFIXED64 | TYPE_SINT32 | TYPE_SINT64
deriving DecidableEq, Repr

/-- The constant `MESSAGE_TYPE` of `FieldTypes.ts`. -/
def MESSAGE_TYPE : FieldType := FieldType.TYPE_MESSAGE

/-- The constant `BYTES_TYPE` of `FieldTypes.ts`. -/
def BYTES_TYPE : FieldType := FieldType.TYPE_BYTES

/-- The constant `ENUM_TYPE` of `FieldTypes.ts`. -/
def ENUM_TYPE : FieldType := FieldType.TYPE_ENUM

/-- Field labels of `FieldDescriptorProto.Label`. -/
inductive Label where
  | LABEL_OPTIONAL | LABEL_REQUIRED | LABEL_REPEATED
deriving DecidableEq, Repr

/-- The `FieldOptions.JSType` per-field representation override. -/
inductive JSType where
  | JS_NORMAL | JS_NUMBER | JS_STRING
deriving DecidableEq, Repr

/-- Field options; `jstype = none` models `hasJstype() === false`. -/
structure FieldOptions where
  jstype : Option JSType
deriving DecidableEq, Repr

/-- Message options; `mapEntry` is the synthetic map-entry flag. -/
structure MessageOptions where
  mapEntry : Bool
deriving DecidableEq, Repr

/-- One field of a message (`FieldDescriptorProto`).  `typeName` carries the
leading dot, as on the wire (e.g. `".pkg.Msg"`); `oneofIndex = none` models
`hasOneofIndex() === false`; `options = none` models absent options. -/
structure FieldDescriptorProto where
  name : String
  type : FieldType
  typeName : String
  label : Label
  oneofIndex : Option Nat
  options : Option FieldOptions
deriving DecidableEq, Repr

/-- One enum value (`EnumValueDescriptorProto`). -/
structure EnumValueDescriptorProto where
  name : String
  number : Int
deriving DecidableEq, Repr

/-- One enum definition (`EnumDescriptorProto`). -/
structure EnumDescriptorProto where
  name : String
  valueList : List EnumValueDescriptorProto
deriving DecidableEq, Repr

/-- One oneof declaration (`OneofDescriptorProto`). -/
structure OneofDescriptorProto where
  name : String
deriving DecidableEq, Repr

/-- One message definition (`DescriptorProto`), with its nested members. -/
inductive DescriptorProto where
  | mk (name : String) (options : Option MessageOptions)
      (fieldList : List FieldDescriptorProto)
      (nestedTypeList : List DescriptorProto)
      (enumTypeList : List EnumDescriptorProto)
      (oneofDeclList : List OneofDescriptorProto)
      (extensionList : List FieldDescriptorProto)
deriving Repr

/-- `getName()` of a message descriptor. -/
def DescriptorProto.getName : DescriptorProto → String
  | .mk n _ _ _ _ _ _ => n

/-- `getOptions()` of a message descriptor. -/
def DescriptorProto.getOptions : DescriptorProto → Option MessageOptions
  | .mk _ o _ _ _ _ _ => o

/-- `getFieldList()` of a message descriptor. -/
def DescriptorProto.getFieldList : DescriptorProto → List FieldDescriptorProto
  | .mk _ _ fs _ _ _ _ => fs

/-- `getNestedTypeList()` of a message descriptor. -/
def DescriptorProto.getNestedTypeList : DescriptorProto → List DescriptorProto
  | .mk _ _ _ ns _ _ _ => ns

/-- `getEnumTypeList()` of a message descriptor. -/
def DescriptorProto.getEnumTypeList : DescriptorProto → List EnumDescriptorProto
  | .mk _ _ _ _ es _ _ => es

/-- `getOneofDeclList()` of a message descriptor. -/
def DescriptorProto.getOneofDeclList : DescriptorProto → List OneofDescriptorProto
  | .mk _ _ _ _ _ os _ => os

/-- `getExtensionList()` of a message descriptor. -/
def DescriptorProto.getExtensionList : DescriptorProto → List FieldDescriptorProto
  | .mk _ _ _ _ _ _ xs => xs

/-- One RPC method (`MethodDescriptorProto`); `inputType`/`outputType` carry
the leading dot. -/
structure MethodDescriptorProto where
  name : String
  inputType : String
  outputType : String
  clientStreaming : Bool
  serverStreaming : Bool
deriving DecidableEq, Repr

/-- One service (`ServiceDescriptorProto`). -/
structure ServiceDescriptorProto where
  name : String
  methodList : List MethodDescriptorProto
deriving DecidableEq, Repr

/-- One schema file (`FileDescriptorProto`).  `protoSyntax` is the declared
dialect string (empty for legacy files). -/
structure FileDescriptorProto where
  name : String
  package : String
  dependencyList : List String
  protoSyntax : String
  serviceList : List ServiceDescriptorProto
deriving DecidableEq, Repr

/-! ## The export map (the external SchemaGraph) -/
/-- Recorded key/value types of a synthetic map-entry message: each is a
(wire type, full type name) tuple, as in the `mapFieldOptions` of the
export map. -/
structure MapFieldOptions where
  key : FieldType × String
  value : FieldType × String

/-- Export-map entry for a message type. -/
structure ExportMessageEntry where
  pkg : String
  fileName : String
  messageOptions : Option MessageOptions
  mapFieldOptions : Option MapFieldOptions

/-- Export-map entry for an enum type. -/
structure ExportEnumEntry where
  pkg : String
  fileName : String

/-- The SchemaGraph: resolves a fully-qualified type name (leading dot
stripped) to its definition site.  External collaborator, read-only. -/
structure ExportMap where
  getMessage : String → Option ExportMessageEntry
  getEnum : String → Option ExportEnumEntry

/-! ## Utility functions (`util.ts`, external to the two source files) -/
/-- Modelled from the spec: detection of the legacy required-field (proto2)
dialect of a file; a file is legacy unless it declares the proto3 dialect. -/
def isProto2 (fileDescriptor : FileDescriptorProto) : Bool :=
  fileDescriptor.protoSyntax == "proto2" || fileDescriptor.protoSyntax == ""

/-- Modelled from the spec: path-separator and punctuation characters are
replaced to form an identifier. -/
def sanitiseChar (c : Char) : Char :=
  if c = '/' ∨ c = '.' ∨ c = '-' then '_' else c

/-- Modelled from the spec: removal of the schema-source suffix from a path. -/
def stripProtoSuffix (s : String) : String :=
  if strEndsWith s ".proto" then strDropRight s 6 else s

/-- Modelled from the spec: the stable pseudo-namespace token of a file,
deterministic from the file's path; used as import alias and as the
cross-file reference prefix. -/
def filePathToPseudoNamespace (filePath : String) : String :=
  ⟨(stripProtoSuffix filePath).data.map sanitiseChar⟩ ++ "_pb"

/-- Modelled from the spec: rewriting of the schema-source suffix of a path
to the generated-file suffix. -/
def replaceProtoSuffix (filePath : String) : String :=
  if strEndsWith filePath ".proto" then strDropRight filePath 6 ++ "_pb" else filePath

/-- Modelled from the spec: the relative path from a file's directory back
to the configured output root. -/
def getPathToRoot (fileName : String) : String :=
  let depth := countChar fileName '/'
  if depth = 0 then "./" else concatTexts (List.replicate depth "../")

/-- Modelled from the spec: normalization of an identifier for call sites;
the spec scenario maps `GetUser` to `getUser`, i.e. the first character is
lowercased. -/
def normaliseFieldObjectName (name : String) : String :=
  match name.data with
  | [] => ""
  | c :: cs => ⟨c.toLower :: cs⟩

/-- Modelled from the spec: the local (possibly nested) dotted path of a
type within its defining file, i.e. the fully-qualified name with the
defining file's package prefix removed. -/
def withinNamespace (typeName : String) (pkg : String) : String :=
  if pkg = "" then typeName else strDrop typeName (pkg.data.length + 1)

/-- Modelled from the spec: the fixed table mapping a small set of reserved
well-known schema files to pre-packaged runtime import paths. -/
def WellKnownTypesMap : String → Option String
  | "google/protobuf/timestamp.proto" =>
      some "google-protobuf/google/protobuf/timestamp_pb"
  | "google/protobuf/duration.proto" =>
      some "google-protobuf/google/protobuf/duration_pb"
  | "google/protobuf/empty.proto" =>
      some "google-protobuf/google/protobuf/empty_pb"
  | "google/protobuf/any.proto" =>
      some "google-protobuf/google/protobuf/any_pb"
  | "google/protobuf/struct.proto" =>
      some "google-protobuf/google/protobuf/struct_pb"
  | "google/protobuf/wrappers.proto" =>
      some "google-protobuf/google/protobuf/wrappers_pb"
  | _ => none

/-! ## Field-type table (`FieldTypes.ts`, external to the two source files) -/
/-- Modelled from the spec: the fixed primitive table mapping scalar wire
types to target type names; the byte-sequence type maps to the two-way
union of a binary buffer and a string. -/
def getTypeName : FieldType → String
  | .TYPE_DOUBLE => "number"
  | .TYPE_FLOAT => "number"
  | .TYPE_INT64 => "number"
  | .TYPE_UINT64 => "number"
  | .TYPE_INT32 => "number"
  | .TYPE_FIXED64 => "number"
  | .TYPE_FIXED32 => "number"
  | .TYPE_BOOL => "boolean"
  | .TYPE_STRING => "string"
  | .TYPE_GROUP => "Uint8Array"
  | .TYPE_MESSAGE => "Object"
  | .TYPE_BYTES => "Uint8Array | string"
  | .TYPE_UINT32 => "number"
  | .TYPE_ENUM => "number"
  | .TYPE_SFIXED32 => "number"
  | .TYPE_SFIXED64 => "number"
  | .TYPE_SINT32 => "number"
  | .TYPE_SINT64 => "number"

/-- Modelled from the spec: the TypeResolver — scalars map through the
primitive table; enum/message references resolve through the export map,
same-file references using the local dotted path and cross-file references
prefixed with the dependency's pseudo-namespace; a reference with no
export-map entry is a fatal missing-export condition. -/
def getFieldType (type : FieldType) (typeName : String) (currentFileName : String)
    (exportMap : ExportMap) : Except String String :=
  if type = MESSAGE_TYPE then
    match exportMap.getMessage typeName with
    | none => .error ("Could not getFieldType for message: " ++ typeName)
    | some fromExport =>
      let within := withinNamespace typeName fromExport.pkg
      if fromExport.fileName = currentFileName then
        .ok within
      else
        .ok (filePathToPseudoNamespace fromExport.fileName ++ "." ++ within)
  else if type = ENUM_TYPE then
    match exportMap.getEnum typeName with
    | none => .error ("Could not getFieldType for enum: " ++ typeName)
    | some fromExport =>
      let within := withinNamespace typeName fromExport.pkg
      if fromExport.fileName = currentFileName then
        .ok within
      else
        .ok (filePathToPseudoNamespace fromExport.fileName ++ "." ++ within)
  else
    .ok (getTypeName type)

/-! ## Text emitters (`Printer.ts` / `CodePrinter.ts`, external) -/
/-- Modelled from the spec: two-space indentation at a given nesting level. -/
def generateIndent (indentLevel : Nat) : String :=
  concatTexts (List.replicate indentLevel "  ")

/-- Modelled from the spec: the indentation-tracking append-only text
buffer; `indentStr` is prepended to every printed line. -/
structure Printer where
  indentStr : String
  output : String
deriving DecidableEq, Repr

/-- `new Printer(indentLevel)`. -/
def Printer.new (indentLevel : Nat) : Printer :=
  ⟨generateIndent indentLevel, ""⟩

/-- Append one line at the printer's indentation. -/
def Printer.printLn (p : Printer) (s : String) : Printer :=
  { p with output := p.output ++ p.indentStr ++ s ++ "\n" }

/-- Append one line at one extra level of indentation. -/
def Printer.printIndentedLn (p : Printer) (s : String) : Printer :=
  { p with output := p.output ++ p.indentStr ++ "  " ++ s ++ "\n" }

/-- Append raw text. -/
def Printer.print (p : Printer) (s : String) : Printer :=
  { p with output := p.output ++ s }

/-- Append one empty line. -/
def Printer.printEmptyLn (p : Printer) : Printer :=
  { p with output := p.output ++ "\n" }

/-- `getOutput()`. -/
def Printer.getOutput (p : Printer) : String := p.output

/-! ## Sub-renderers (external collaborators of `message.ts`) -/
/-- Modelled from the spec: the enum sub-renderer, an external collaborator
of the message emitter; produces a text fragment for one enum at the given
indent. -/
def printEnum (enumDescriptor : EnumDescriptorProto) (indentLevel : Nat) : String :=
  generateIndent indentLevel ++ "export enum " ++ enumDescriptor.name ++ " \x7b\x7d\n"

/-- Modelled from the spec: the oneof sub-renderer, an external
collaborator of the message emitter; produces a discriminated-union text
fragment from the ordered group of fields of one oneof declaration. -/
def printOneOfDecl (oneOfDecl : OneofDescriptorProto)
    (fields : List FieldDescriptorProto) (indentLevel : Nat) : String :=
  generateIndent indentLevel ++ "export type " ++ oneOfDecl.name ++ " = " ++
    concatTexts (fields.map (fun f => "| " ++ f.name ++ " ")) ++ "\n"

/-- Modelled from the spec: the extension sub-renderer, an external
collaborator of the message emitter. -/
def printExtension (fileName : String) (exportMap : ExportMap)
    (extensionField : FieldDescriptorProto) (indentLevel : Nat) : String :=
  generateIndent indentLevel ++ "export const " ++ extensionField.name ++ ";\n"

/-- Modelled from the spec: the indentation-scoped code printer wrapping an
underlying `Printer`; `indent`/`dedent` adjust the current depth. -/
structure CodePrinter where
  depth : Nat
  printer : Printer
deriving DecidableEq, Repr

/-! ## The message emitter (`src/ts/message.ts`) -/
/-- The mutable state of `printMessage`'s field loop: the sparse
`oneOfGroups` array (absent entries read as `[]`) and the printer. -/
structure MsgState where
  oneOfGroups : Nat → List FieldDescriptorProto
  printer : Printer

/-- The oneof-group accumulation at the head of the field loop: a field
with a oneof index is pushed onto its group. -/
def pushOneOfGroup (st : MsgState) (field : FieldDescriptorProto) : MsgState :=
  match field.oneofIndex with
  | none => st
  | some i =>
    { st with oneOfGroups := fun j =>
        if j = i then st.oneOfGroups j ++ [field] else st.oneOfGroups j }

/-- The member-declaration text of one non-map field, given its resolved
`exportType`: the repeated label wraps in `Array<...>`, byte-sequence
fields always render as the `Uint8Array | string` union, and singular
non-bytes members carry the optional marker per the absence computation of
`printMessage` (`src/ts/message.ts`, lines 98-121). -/
def fieldMemberLine (fileDescriptor : FileDescriptorProto)
    (field : FieldDescriptorProto) (exportType : String) : String :=
  if field.label = Label.LABEL_REPEATED then
    if field.type = BYTES_TYPE then
      field.name ++ ": Array<Uint8Array | string>;"
    else
      field.name ++ ": Array<" ++ exportType ++ ">;"
  else
    if field.type = BYTES_TYPE then
      field.name ++ ": Uint8Array | string;"
    else
      let canBeUndefined :=
        if field.type = MESSAGE_TYPE then
          !(isProto2 fileDescriptor) || field.label = Label.LABEL_OPTIONAL
        else
          isProto2 fileDescriptor
      normaliseFieldObjectName field.name ++ (if canBeUndefined then "?" else "") ++
        ": " ++ exportType ++ ";"

/-- One iteration of the field loop of `printMessage`
(`src/ts/message.ts`, lines 31-123): group oneof members, then resolve the
field's type (throwing on a missing export), rendering map-entry
references as `Map<K, V>` and everything else through `fieldMemberLine`. -/
def printField (fileName : String) (exportMap : ExportMap)
    (fileDescriptor : FileDescriptorProto) (st : MsgState)
    (field : FieldDescriptorProto) : Except String MsgState :=
  let st := pushOneOfGroup st field
  let type := field.type
  let fullTypeName := strDrop field.typeName 1
  if type = MESSAGE_TYPE then
    match exportMap.getMessage fullTypeName with
    | none => .error ("No message export for: " ++ fullTypeName)
    | some fieldMessageType =>
      if (match fieldMessageType.messageOptions with
          | some o => o.mapEntry
          | none => false) then
        match fieldMessageType.mapFieldOptions with
        | none => .error ("Malformed map entry for: " ++ fullTypeName)
        | some mapOptions =>
          match getFieldType mapOptions.key.1 mapOptions.key.2 fileName exportMap with
          | .error e => .error e
          | .ok keyTypeName =>
            match getFieldType mapOptions.value.1 mapOptions.value.2 fileName exportMap with
            | .error e => .error e
            | .ok valueTypeName0 =>
              let valueTypeName :=
                if mapOptions.value.1 = BYTES_TYPE then "Uint8Array | string"
                else valueTypeName0
              .ok { st with printer := (st.printer.printIndentedLn
                (field.name ++ ": Map<" ++ keyTypeName ++ ", " ++ valueTypeName ++ ">;")) }
      else
        let within := withinNamespace fullTypeName fieldMessageType.pkg
        let exportType :=
          if fieldMessageType.fileName = fileName then within
          else filePathToPseudoNamespace fieldMessageType.fileName ++ "." ++ within
        .ok { st with printer := (st.printer.printIndentedLn
          (fieldMemberLine fileDescriptor field exportType)) }
  else if type = ENUM_TYPE then
    match exportMap.getEnum fullTypeName with
    | none => .error ("No enum export for: " ++ fullTypeName)
    | some fieldEnumType =>
      let within := withinNamespace fullTypeName fieldEnumType.pkg
      let exportType :=
        if fieldEnumType.fileName = fileName then within
        else filePathToPseudoNamespace fieldEnumType.fileName ++ "." ++ within
      .ok { st with printer := (st.printer.printIndentedLn
        (fieldMemberLine fileDescriptor field exportType)) }
  else
    let exportType :=
      match field.options with
      | some opts =>
        match opts.jstype with
        | some JSType.JS_NUMBER => "number"
        | some JSType.JS_STRING => "string"
        | some JSType.JS_NORMAL => getTypeName type
        | none => getTypeName type
      | none => getTypeName type
    .ok { st with printer := (st.printer.printIndentedLn
      (fieldMemberLine fileDescriptor field exportType)) }

/-- The field loop of `printMessage`: iterate `printField` over the field
list, a thrown error aborting the whole iteration. -/
def printFields (fileName : String) (exportMap : ExportMap)
    (fileDescriptor : FileDescriptorProto) :
    List FieldDescriptorProto → MsgState → Except String MsgState
  | [], st => .ok st
  | field :: rest, st =>
    match printField fileName exportMap fileDescriptor st field with
    | .error e => .error e
    | .ok st' => printFields fileName exportMap fileDescriptor rest st'

mutual

/-- `printMessage` of `src/ts/message.ts`: renders one message as an
exported class with one member per field, recursing into nested messages,
enums, oneof groups and extensions; a map-entry-flagged message renders as
the empty string. -/
def printMessage (fileName : String) (exportMap : ExportMap)
    (messageDescriptor : DescriptorProto) (indentLevel : Nat)
    (fileDescriptor : FileDescriptorProto) : Except String String :=
  match messageDescriptor with
  | .mk messageName messageOptions fieldList nestedTypeList enumTypeList oneofDeclList extensionList =>
    if (match messageOptions with
        | some o => o.mapEntry
        | none => false) then
      .ok ""
    else
      let printer := Printer.new indentLevel
      let printer := printer.printLn ("export class " ++ messageName ++ " \x7b")
      match printFields fileName exportMap fileDescriptor fieldList ⟨fun _ => [], printer⟩ with
      | .error e => .error e
      | .ok st =>
        match printNestedList fileName exportMap nestedTypeList (indentLevel + 1) fileDescriptor st.printer with
        | .error e => .error e
        | .ok printer =>
          let printer := enumTypeList.foldl
            (fun pr e => pr.print (printEnum e (indentLevel + 1))) printer
          let printer := (oneofDeclList.enum).foldl
            (fun pr p => pr.print (printOneOfDecl p.2 (st.oneOfGroups p.1) (indentLevel + 1))) printer
          let printer := extensionList.foldl
            (fun pr x => pr.print (printExtension fileName exportMap x (indentLevel + 1))) printer
          let printer := printer.printLn "\x7d"
          .ok printer.getOutput

/-- The nested-type loop of `printMessage`: render each nested message and
append its output, skipping empty outputs (map entries). -/
def printNestedList (fileName : String) (exportMap : ExportMap)
    (nestedList : List DescriptorProto) (indentLevel : Nat)
    (fileDescriptor : FileDescriptorProto) (printer : Printer) : Except String Printer :=
  match nestedList with
  | [] => .ok printer
  | nested :: rest =>
    match printMessage fileName exportMap nested indentLevel fileDescriptor with
    | .error e => .error e
    | .ok msgOutput =>
      let printer := if msgOutput ≠ "" then printer.print msgOutput else printer
      printNestedList fileName exportMap rest indentLevel fileDescriptor printer

end

/-! ## The code printer -/
/-- Increase the current depth. -/
def CodePrinter.indent (c : CodePrinter) : CodePrinter :=
  { c with depth := c.depth + 1 }

/-- Decrease the current depth. -/
def CodePrinter.dedent (c : CodePrinter) : CodePrinter :=
  { c with depth := c.depth - 1 }

/-- Append one line at the current depth. -/
def CodePrinter.printLn (c : CodePrinter) (s : String) : CodePrinter :=
  { c with printer := c.printer.printLn (generateIndent c.depth ++ s) }

/-- Append one empty line. -/
def CodePrinter.printEmptyLn (c : CodePrinter) : CodePrinter :=
  { c with printer := c.printer.printEmptyLn }

/-! ## The JSON-RPC service emitter (`src/service/jsonrpc.ts`) -/
/-- The resolved request/response type expressions of one method. -/
structure CallingTypes where
  requestType : String
  responseType : String
deriving DecidableEq, Repr

/-- `getCallingTypes`: resolve a method's input and output type (leading
dot stripped) through the TypeResolver, with `""` as the current file. -/
def getCallingTypes (method : MethodDescriptorProto) (exportMap : ExportMap) :
    Except String CallingTypes :=
  match getFieldType MESSAGE_TYPE (strDrop method.inputType 1) "" exportMap with
  | .error e => .error e
  | .ok requestType =>
    match getFieldType MESSAGE_TYPE (strDrop method.outputType 1) "" exportMap with
    | .error e => .error e
    | .ok responseType => .ok ⟨requestType, responseType⟩

/-- One method's test inside `isUsed`: whether its request or response
type begins with `pseudoNamespace ++ "."` (the source's
`indexOf(namespacePackage) === 0`). -/
def methodUsesNamespace (pseudoNamespace : String) (exportMap : ExportMap)
    (method : MethodDescriptorProto) : Except String Bool :=
  match getCallingTypes method exportMap with
  | .error e => .error e
  | .ok callingTypes =>
    let namespacePackage := pseudoNamespace ++ "."
    .ok (strStartsWith callingTypes.requestType namespacePackage ||
         strStartsWith callingTypes.responseType namespacePackage)

/-- The inner `some` of `isUsed` over one service's methods. -/
def anyMethodUses (pseudoNamespace : String) (exportMap : ExportMap) :
    List MethodDescriptorProto → Except String Bool
  | [] => .ok false
  | method :: rest =>
    match methodUsesNamespace pseudoNamespace exportMap method with
    | .error e => .error e
    | .ok true => .ok true
    | .ok false => anyMethodUses pseudoNamespace exportMap rest

/-- The outer `some` of `isUsed` over a file's services. -/
def anyServiceUses (pseudoNamespace : String) (exportMap : ExportMap) :
    List ServiceDescriptorProto → Except String Bool
  | [] => .ok false
  | service :: rest =>
    match anyMethodUses pseudoNamespace exportMap service.methodList with
    | .error e => .error e
    | .ok true => .ok true
    | .ok false => anyServiceUses pseudoNamespace exportMap rest

/-- `isUsed`: true iff some method of some service of the file has a
request or response type in the given pseudo-namespace. -/
def isUsed (fileDescriptor : FileDescriptorProto) (pseudoNamespace : String)
    (exportMap : ExportMap) : Except String Bool :=
  anyServiceUses pseudoNamespace exportMap fileDescriptor.serviceList

/-- An import statement: the pseudo-namespace alias (`ns`) and the module
path. -/
structure ImportDescriptor where
  ns : String
  path : String
deriving DecidableEq, Repr

/-- A rendering-ready method descriptor (`RPCMethodDescriptor`). -/
structure RPCMethodDescriptor where
  nameAsPascalCase : String
  nameAsCamelCase : String
  functionName : String
  serviceName : String
  requestStream : Bool
  responseStream : Bool
  requestType : String
  responseType : String
deriving DecidableEq, Repr

/-- The source's `method.getName()[0].toLowerCase() + method.getName().substr(1)`
(total on the empty string). -/
def lowerFirstChar (s : String) : String :=
  match s.data with
  | [] => ""
  | c :: cs => ⟨c.toLower :: cs⟩

/-- The body of `RPCDescriptor.methods`: adapt each raw method node into a
rendering-ready descriptor, resolving its calling types. -/
def methodDescriptorsOf (serviceName : String) (exportMap : ExportMap) :
    List MethodDescriptorProto → Except String (List RPCMethodDescriptor)
  | [] => .ok []
  | method :: rest =>
    match getCallingTypes method exportMap with
    | .error e => .error e
    | .ok callingTypes =>
      match methodDescriptorsOf serviceName exportMap rest with
      | .error e => .error e
      | .ok tail =>
        .ok ({ nameAsPascalCase := method.name,
               nameAsCamelCase := lowerFirstChar method.name,
               functionName := normaliseFieldObjectName method.name,
               serviceName := serviceName,
               requestStream := method.clientStreaming,
               responseStream := method.serverStreaming,
               requestType := callingTypes.requestType,
               responseType := callingTypes.responseType } :: tail)

/-- `RPCDescriptor.methods` for one service. -/
def serviceMethods (service : ServiceDescriptorProto) (exportMap : ExportMap) :
    Except String (List RPCMethodDescriptor) :=
  methodDescriptorsOf service.name exportMap service.methodList

/-- The dependency filter inside `RPCServiceDescriptor.imports`:
declaration-order `filter` by `isUsed`. -/
def usedDependencies (fileDescriptor : FileDescriptorProto) (exportMap : ExportMap) :
    List String → Except String (List String)
  | [] => .ok []
  | dependency :: rest =>
    match isUsed fileDescriptor (filePathToPseudoNamespace dependency) exportMap with
    | .error e => .error e
    | .ok b =>
      match usedDependencies fileDescriptor exportMap rest with
      | .error e => .error e
      | .ok tail => .ok (if b then dependency :: tail else tail)

/-- The import entry of one used dependency: a well-known file maps through
the fixed path table, anything else through the root-relative rewritten
path. -/
def dependencyImport (pathToRoot : String) (dependency : String) : ImportDescriptor :=
  let ns := filePathToPseudoNamespace dependency
  match WellKnownTypesMap dependency with
  | some path => ⟨ns, path⟩
  | none => ⟨ns, pathToRoot ++ replaceProtoSuffix (replaceProtoSuffix dependency)⟩

/-- The host file's own import entry (`hostProto`). -/
def hostImport (fileDescriptor : FileDescriptorProto) : ImportDescriptor :=
  ⟨filePathToPseudoNamespace fileDescriptor.name,
   getPathToRoot fileDescriptor.name ++ replaceProtoSuffix fileDescriptor.name⟩

/-- `RPCServiceDescriptor.imports`: the host entry first, then the used
dependencies' entries in declaration order. -/
def RPCServiceDescriptor.imports (fileDescriptor : FileDescriptorProto)
    (exportMap : ExportMap) : Except String (List ImportDescriptor) :=
  match usedDependencies fileDescriptor exportMap fileDescriptor.dependencyList with
  | .error e => .error e
  | .ok dependencies =>
    .ok (hostImport fileDescriptor ::
      dependencies.map (dependencyImport (getPathToRoot fileDescriptor.name)))

/-- `printUnaryStubMethodTypes`: the unary client stub of one method. -/
def printUnaryStubMethodTypes (printer : CodePrinter)
    (service : ServiceDescriptorProto) (method : RPCMethodDescriptor) : CodePrinter :=
  let printer := printer.printLn (method.functionName ++ "(")
  let printer := printer.indent
  let printer := printer.printLn ("requestMessage: " ++ method.requestType ++ ",")
  let printer := printer.printLn ("options?: \x7b[key: string]: string\x7d): Observable<" ++ method.responseType ++ "> \x7b")
  let printer := printer.printLn ("let rpcRequest = <JsonRPCRequest>\x7b\"id\": \"1\", \"method\": \"" ++ service.name ++ "." ++ method.nameAsPascalCase ++ "\", \"params\": requestMessage, \"jsonrpc\": \"2.0\"\x7d;")
  let printer := printer.printLn ("return this.call<" ++ method.responseType ++ ">(`$\x7bthis.serviceHost\x7d/rpc`, rpcRequest, options);")
  let printer := printer.dedent
  let printer := printer.printLn "\x7d"
  printer.printEmptyLn

/-- `printUnaryStubBatchMethodTypes`: the batch client stub of one method. -/
def printUnaryStubBatchMethodTypes (printer : CodePrinter)
    (service : ServiceDescriptorProto) (method : RPCMethodDescriptor) : CodePrinter :=
  let printer := printer.printLn (method.functionName ++ "Batch(")
  let printer := printer.indent
  let printer := printer.printLn ("requestMessages: " ++ method.requestType ++ "[],")
  let printer := printer.printLn ("options?: \x7b[key: string]: string\x7d): Observable<" ++ method.responseType ++ "[]> \x7b")
  let printer := printer.printLn ("let rpcRequests = requestMessages.map((r) => \x7breturn <JsonRPCRequest>\x7b\"id\": \"1\", \"method\": \"" ++ service.name ++ "." ++ method.nameAsPascalCase ++ "\", \"params\": r, \"jsonrpc\": \"2.0\"\x7d;\x7d);")
  let printer := printer.printLn ("return this.callBatch<" ++ method.responseType ++ "[]>(`$\x7bthis.serviceHost\x7d/rpc`, rpcRequests, options);")
  let printer := printer.dedent
  let printer := printer.printLn "\x7d"
  printer.printEmptyLn

/-- The method loop of `printServiceStubTypes`: a stub pair per
non-streaming method; streaming methods contribute nothing. -/
def stubMethodsFold (service : ServiceDescriptorProto)
    (methods : List RPCMethodDescriptor) (printer : CodePrinter) : CodePrinter :=
  methods.foldl (fun p method =>
    if !method.requestStream && !method.responseStream then
      printUnaryStubBatchMethodTypes (printUnaryStubMethodTypes p service method) service method
    else p) printer

/-- `printServiceStubTypes`: the `Client` stub class of one service,
appended onto the shared method printer. -/
def printServiceStubTypes (methodPrinter : Printer)
    (service : ServiceDescriptorProto) (exportMap : ExportMap) : Except String Printer :=
  let printer : CodePrinter := ⟨1, methodPrinter⟩
  let printer := printer.printLn "export class Client \x7b"
  let printer := printer.indent
  let printer := printer.printLn "private serviceHost: string;"
  let printer := printer.printEmptyLn
  let printer := printer.printLn "constructor(serviceHost: string, private http: HttpClient) \x7b"
  let printer := printer.indent
  let printer := printer.printLn "this.serviceHost = serviceHost;"
  let printer := printer.dedent
  let printer := printer.printLn "\x7d"
  let printer := printer.printEmptyLn
  let printer := printer.printLn "call<T>(url: string, request: any, options?: \x7b[key: string]: string\x7d): Observable<T> \x7b"
  let printer := printer.indent
  let printer := printer.printLn "return this.http.post<JsonRPCResponse>(url, request, options).pipe(map(response => \x7b return response.result; \x7d), catchError(error => \x7b return throwError(error); \x7d));"
  let printer := printer.dedent
  let printer := printer.printLn "\x7d"
  let printer := printer.printEmptyLn
  let printer := printer.printLn "callBatch<T>(url: string, request: any, options?: \x7b[key: string]: string\x7d): Observable<T> \x7b"
  let printer := printer.indent
  let printer := printer.printLn "// @ts-ignore"
  let printer := printer.printLn "return this.http.post<JsonRPCResponse[]>(url, request, options).pipe(map(response => \x7b return response.map((r) => \x7b return <T>r.result; \x7d) \x7d), catchError(error => \x7b return throwError(error); \x7d));"
  let printer := printer.dedent
  let printer := printer.printLn "\x7d"
  let printer := printer.printEmptyLn
  match serviceMethods service exportMap with
  | .error e => .error e
  | .ok methods =>
    let printer := stubMethodsFold service methods printer
    let printer := printer.dedent
    .ok (printer.printLn "\x7d").printer

/-- One method's type-alias block inside the per-service alias loop of
`generateTypescriptDefinition`. -/
def printMethodAlias (p : CodePrinter) (method : RPCMethodDescriptor) : CodePrinter :=
  let p := p.printLn ("type " ++ method.serviceName ++ method.nameAsPascalCase ++ " = \x7b")
  let p := p.indent
  let p := p.printLn "readonly methodName: string;"
  let p := p.printLn ("readonly service: typeof " ++ method.serviceName ++ ";")
  let p := p.printLn ("readonly requestType: typeof " ++ method.requestType ++ ";")
  let p := p.printLn ("readonly responseType: typeof " ++ method.responseType ++ ";")
  let p := p.dedent
  let p := p.printLn "\x7d;"
  p.printEmptyLn

/-- One method's static field line inside the service class of
`generateTypescriptDefinition`. -/
def printStaticField (p : CodePrinter) (method : RPCMethodDescriptor) : CodePrinter :=
  p.printLn ("static readonly " ++ method.nameAsPascalCase ++ ": " ++
    method.serviceName ++ method.nameAsPascalCase ++ ";")

/-- The per-service alias/class block of `generateTypescriptDefinition`
(one type alias per method, then the service class with its static
fields). -/
def serviceAliasClassBlock (service : ServiceDescriptorProto)
    (methods : List RPCMethodDescriptor) (printer : CodePrinter) : CodePrinter :=
  let printer := methods.foldl printMethodAlias printer
  let printer := printer.printLn ("class " ++ service.name ++ " \x7b")
  let printer := printer.indent
  let printer := printer.printLn "static readonly serviceName: string;"
  let printer := methods.foldl printStaticField printer
  let printer := printer.dedent
  let printer := printer.printLn "\x7d"
  printer.printEmptyLn

/-- The alias/class loop over the file's services. -/
def servicesAliasFold (exportMap : ExportMap) :
    List ServiceDescriptorProto → CodePrinter → Except String CodePrinter
  | [], printer => .ok printer
  | service :: rest, printer =>
    match serviceMethods service exportMap with
    | .error e => .error e
    | .ok methods =>
      servicesAliasFold exportMap rest (serviceAliasClassBlock service methods printer)

/-- The client-stub loop over the file's services: each stub block is
printed onto the shared output printer and followed by one empty line. -/
def servicesStubFold (exportMap : ExportMap) :
    List ServiceDescriptorProto → CodePrinter → Except String CodePrinter
  | [], printer => .ok printer
  | service :: rest, printer =>
    match printServiceStubTypes printer.printer service exportMap with
    | .error e => .error e
    | .ok pr =>
      servicesStubFold exportMap rest ({ printer with printer := pr } : CodePrinter).printEmptyLn

/-- One import statement line of `generateTypescriptDefinition`. -/
def printImport (p : CodePrinter) (i : ImportDescriptor) : CodePrinter :=
  p.printLn ("import * as " ++ i.ns ++ " from \"" ++ i.path ++ "\";")

/-- `generateTypescriptDefinition` of `src/service/jsonrpc.ts`: the
two-line header, and — when the file declares at least one service — the
emitted import statements, the envelope types, per-service alias/class
blocks and the client stubs, all wrapped in one exported namespace named
after the first service. -/
def generateTypescriptDefinition (fileDescriptor : FileDescriptorProto)
    (exportMap : ExportMap) : Except String String :=
  let outPrinter := Printer.new 0
  let printer : CodePrinter := ⟨0, outPrinter⟩
  let printer := printer.printLn ("// package: " ++ fileDescriptor.package)
  let printer := printer.printLn ("// file: " ++ fileDescriptor.name)
  let printer := printer.printEmptyLn
  match fileDescriptor.serviceList with
  | [] => .ok printer.printer.getOutput
  | s0 :: _ =>
    match RPCServiceDescriptor.imports fileDescriptor exportMap with
    | .error e => .error e
    | .ok importList =>
      let printer := importList.foldl printImport printer
      let printer := printer.printLn "import \x7bHttpClient\x7d from \"@angular/common/http\";"
      let printer := printer.printLn "import \x7bObservable, throwError\x7d from \"rxjs\";"
      let printer := printer.printLn "import \x7bcatchError, map\x7d from \"rxjs/operators\";"
      let printer := printer.printEmptyLn
      let printer := printer.printLn ("export namespace " ++ s0.name ++ " \x7b")
      let printer := printer.indent
      let printer := printer.printLn "class JsonRPCRequest \x7b"
      let printer := printer.indent
      let printer := printer.printLn "public jsonrpc: string;"
      let printer := printer.printLn "public id: string;"
      let printer := printer.printLn "public method: string;"
      let printer := printer.printLn "public params: any;"
      let printer := printer.dedent
      let printer := printer.printLn "\x7d"
      let printer := printer.printEmptyLn
      let printer := printer.printLn "type JsonRPCResponse = \x7b"
      let printer := printer.indent
      let printer := printer.printLn "readonly result: any;"
      let printer := printer.printLn "readonly id: string;"
      let printer := printer.printLn "readonly jsonrpc: string;"
      let printer := printer.dedent
      let printer := printer.printLn "\x7d"
      let printer := printer.printEmptyLn
      match servicesAliasFold exportMap fileDescriptor.serviceList printer with
      | .error e => .error e
      | .ok printer =>
        match servicesStubFold exportMap fileDescriptor.serviceList printer with
        | .error e => .error e
        | .ok printer =>
          let printer := printer.dedent
          .ok (printer.printLn "\x7d").printer.getOutput

/-- One generated-file record (`CodeGeneratorResponse.File`). -/
structure CodeGeneratorResponseFile where
  name : String
  content : String
deriving DecidableEq, Repr

/-- `createFile`. -/
def createFile (output : String) (filename : String) : CodeGeneratorResponseFile :=
  ⟨filename, output⟩

/-- `generateJSONRPCService`: one `<inputFile>_service.ts` record. -/
def generateJSONRPCService (filename : String) (descriptor : FileDescriptorProto)
    (exportMap : ExportMap) : Except String (List CodeGeneratorResponseFile) :=
  match generateTypescriptDefinition descriptor exportMap with
  | .error e => .error e
  | .ok out => .ok [createFile out (filename ++ "_service.ts")]

/-! ## Derived predicates used in the statements -/
/-- Whether an export-map message entry is flagged as a synthetic map
entry. -/
def entryIsMapEntry (entry : ExportMessageEntry) : Bool :=
  match entry.messageOptions with
  | some o => o.mapEntry
  | none => false

/-- Whether one field's enum/message reference (and, for a map entry, its
recorded key and value types) resolves. -/
def fieldResolvesB (fileName : String) (exportMap : ExportMap)
    (field : FieldDescriptorProto) : Bool :=
  if field.type = MESSAGE_TYPE then
    match exportMap.getMessage (strDrop field.typeName 1) with
    | none => false
    | some entry =>
      if entryIsMapEntry entry then
        match entry.mapFieldOptions with
        | none => false
        | some mapOptions =>
          (getFieldType mapOptions.key.1 mapOptions.key.2 fileName exportMap).isOk &&
          (getFieldType mapOptions.value.1 mapOptions.value.2 fileName exportMap).isOk
      else true
  else if field.type = ENUM_TYPE then
    (exportMap.getEnum (strDrop field.typeName 1)).isSome
  else true

mutual

/-- Whether every referenced type of a message (and, recursively, of its
nested messages) resolves. -/
def messageResolvesB (fileName : String) (exportMap : ExportMap) :
    DescriptorProto → Bool
  | .mk _ _ fieldList nestedTypeList _ _ _ =>
    fieldList.all (fieldResolvesB fileName exportMap) &&
    nestedListResolvesB fileName exportMap nestedTypeList

/-- `messageResolvesB` over a list of nested messages. -/
def nestedListResolvesB (fileName : String) (exportMap : ExportMap) :
    List DescriptorProto → Bool
  | [] => true
  | nested :: rest =>
    messageResolvesB fileName exportMap nested &&
    nestedListResolvesB fileName exportMap rest

end

/-- Whether a singular field's reference resolves and is not a synthetic
map entry. -/
def singularFieldResolvesNonMap (exportMap : ExportMap)
    (field : FieldDescriptorProto) : Bool :=
  if field.type = MESSAGE_TYPE then
    match exportMap.getMessage (strDrop field.typeName 1) with
    | some entry => !(entryIsMapEntry entry)
    | none => false
  else if field.type = ENUM_TYPE then
    (exportMap.getEnum (strDrop field.typeName 1)).isSome
  else true

/-- Whether every method of every service of a file has resolvable
request/response types. -/
def callingTypesResolveB (fileDescriptor : FileDescriptorProto)
    (exportMap : ExportMap) : Bool :=
  fileDescriptor.serviceList.all (fun service =>
    service.methodList.all (fun method => (getCallingTypes method exportMap).isOk))

/-- The executable form of one method's `isUsed` test: whether the
method's resolved request or response type lies in the given
pseudo-namespace (`false` when resolution fails). -/
def methodUsesB (exportMap : ExportMap) (pseudoNamespace : String)
    (method : MethodDescriptorProto) : Bool :=
  match getCallingTypes method exportMap with
  | .ok ct =>
    strStartsWith ct.requestType (pseudoNamespace ++ ".") ||
    strStartsWith ct.responseType (pseudoNamespace ++ ".")
  | .error _ => false

/-- The executable form of `isUsed`'s condition: some method of some
service of the file has a request or response type in the dependency's
pseudo-namespace. -/
def dependencyUsedB (fileDescriptor : FileDescriptorProto) (exportMap : ExportMap)
    (dependency : String) : Bool :=
  fileDescriptor.serviceList.any (fun service =>
    service.methodList.any (methodUsesB exportMap (filePathToPseudoNamespace dependency)))

/-- The declarative form of `isUsed`'s condition. -/
def DependencyUsed (fileDescriptor : FileDescriptorProto) (exportMap : ExportMap)
    (dependency : String) : Prop :=
  ∃ service ∈ fileDescriptor.serviceList, ∃ method ∈ service.methodList, ∃ ct,
    getCallingTypes method exportMap = .ok ct ∧
    (strStartsWith ct.requestType (filePathToPseudoNamespace dependency ++ ".") = true ∨
     strStartsWith ct.responseType (filePathToPseudoNamespace dependency ++ ".") = true)

/-- The field-loop state after rendering one member line: the oneof groups
pushed for the field, and the line appended at one extra indent. -/
def appendMemberLine (st : MsgState) (field : FieldDescriptorProto) (line : String) : MsgState :=
  let st := pushOneOfGroup st field
  { st with printer := st.printer.printIndentedLn line }

/-! ## Concrete fixtures used by the witnesses -/
/-- An export map with no entries. -/
def emptyExportMap : ExportMap := ⟨fun _ => none, fun _ => none⟩

/-- The empty field-loop state over a fresh top-level printer. -/
def emptyMsgState : MsgState := ⟨fun _ => [], Printer.new 0⟩

/-- A service-less schema file. -/
def fdNoServices : FileDescriptorProto :=
  { name := "f.proto", package := "pkg", dependencyList := [], protoSyntax := "proto3",
    serviceList := [] }

/-- An export map holding one map-entry message (string keys, bytes
values). -/
def mapEntryExportMap : ExportMap :=
  { getMessage := fun s =>
      if s = "pkg.M.TagsEntry" then
        some { pkg := "pkg", fileName := "f.proto", messageOptions := some ⟨true⟩,
               mapFieldOptions := some { key := (FieldType.TYPE_STRING, ""),
                                         value := (FieldType.TYPE_BYTES, "") } }
      else none,
    getEnum := fun _ => none }

/-- A map-entry-flagged message descriptor. -/
def mapEntryMsg : DescriptorProto := .mk "TagsEntry" (some ⟨true⟩) [] [] [] [] []

/-- A repeated field referencing the map-entry message. -/
def mapField : FieldDescriptorProto :=
  { name := "tags", type := FieldType.TYPE_MESSAGE, typeName := ".pkg.M.TagsEntry",
    label := Label.LABEL_REPEATED, oneofIndex := none, options := none }

/-! ## C8 -/
/-- A singular (non-repeated) field referencing the map-entry message. -/
def singularMapField : FieldDescriptorProto :=
  { name := "tags1", type := FieldType.TYPE_MESSAGE, typeName := ".pkg.M.TagsEntry",
    label := Label.LABEL_OPTIONAL, oneofIndex := none, options := none }

/-- An export map holding one ordinary (non-map-entry) cross-file message
type. -/
def c8ExportMap : ExportMap :=
  { getMessage := fun s =>
      if s = "pkg.Other" then
        some { pkg := "pkg", fileName := "other.proto", messageOptions := none,
               mapFieldOptions := none }
      else none,
    getEnum := fun _ => none }

/-- A field whose message type has no export-map entry. -/
def missingMsgField : FieldDescriptorProto :=
  { name := "m", type := FieldType.TYPE_MESSAGE, typeName := ".pkg.Missing",
    label := Label.LABEL_OPTIONAL, oneofIndex := none, options := none }

/-- A field whose enum type has no export-map entry. -/
def missingEnumField : FieldDescriptorProto :=
  { name := "e", type := FieldType.TYPE_ENUM, typeName := ".pkg.MissingE",
    label := Label.LABEL_OPTIONAL, oneofIndex := none, options := none }

/-- A message containing the unresolvable field. -/
def badMsg : DescriptorProto := .mk "Bad" none [missingMsgField] [] [] [] []

/-- A message whose only field is a plain scalar. -/
def goodMsg : DescriptorProto :=
  .mk "Good" none
    [{ name := "id", type := FieldType.TYPE_INT32, typeName := "",
       label := Label.LABEL_OPTIONAL, oneofIndex := none, options := none }]
    [] [] [] []

/-- An export map for the import-elision fixture: the request type lives
in the used dependency, the response type in the host file. -/
def c4ExportMap : ExportMap :=
  { getMessage := fun s =>
      if s = "pkg.Req" then
        some { pkg := "pkg", fileName := "dep/used.proto", messageOptions := none,
               mapFieldOptions := none }
      else if s = "pkg.Res" then
        some { pkg := "pkg", fileName := "f.proto", messageOptions := none,
               mapFieldOptions := none }
      else none,
    getEnum := fun _ => none }

/-- A schema file with one used and one unused dependency. -/
def c4fd : FileDescriptorProto :=
  { name := "f.proto", package := "pkg",
    dependencyList := ["dep/used.proto", "dep/unused.proto"],
    protoSyntax := "proto3",
    serviceList := [{ name := "S", methodList := [
      { name := "M", inputType := ".pkg.Req", outputType := ".pkg.Res",
        clientStreaming := false, serverStreaming := false }] }] }

/-! ## Emitted-text machinery for the stub theorems -/
/-- One line as emitted through the code printer: the underlying printer's
own indent, the depth indent, the text, and a newline. -/
def emittedLn (ind : String) (depth : Nat) (s : String) : String :=
  ind ++ (generateIndent depth ++ (s ++ "\n"))

/-- One emitted line followed by one empty line. -/
def emittedLnBlank (ind : String) (depth : Nat) (s : String) : String :=
  ind ++ (generateIndent depth ++ (s ++ ("\n" ++ "\n")))

/-- The text of one unary stub (`printUnaryStubMethodTypes`) at depth `d`. -/
def unaryStubText (ind : String) (d : Nat) (serviceName : String)
    (method : RPCMethodDescriptor) : String :=
  emittedLn ind d (method.functionName ++ "(") ++
  (emittedLn ind (d + 1) ("requestMessage: " ++ method.requestType ++ ",") ++
  (emittedLn ind (d + 1) ("options?: \x7b[key: string]: string\x7d): Observable<" ++ method.responseType ++ "> \x7b") ++
  (emittedLn ind (d + 1) ("let rpcRequest = <JsonRPCRequest>\x7b\"id\": \"1\", \"method\": \"" ++ serviceName ++ "." ++ method.nameAsPascalCase ++ "\", \"params\": requestMessage, \"jsonrpc\": \"2.0\"\x7d;") ++
  (emittedLn ind (d + 1) ("return this.call<" ++ method.responseType ++ ">(`$\x7bthis.serviceHost\x7d/rpc`, rpcRequest, options);") ++
  emittedLnBlank ind d "\x7d"))))

/-- The text of one batch stub (`printUnaryStubBatchMethodTypes`) at depth
`d`. -/
def batchStubText (ind : String) (d : Nat) (serviceName : String)
    (method : RPCMethodDescriptor) : String :=
  emittedLn ind d (method.functionName ++ "Batch(") ++
  (emittedLn ind (d + 1) ("requestMessages: " ++ method.requestType ++ "[],") ++
  (emittedLn ind (d + 1) ("options?: \x7b[key: string]: string\x7d): Observable<" ++ method.responseType ++ "[]> \x7b") ++
  (emittedLn ind (d + 1) ("let rpcRequests = requestMessages.map((r) => \x7breturn <JsonRPCRequest>\x7b\"id\": \"1\", \"method\": \"" ++ serviceName ++ "." ++ method.nameAsPascalCase ++ "\", \"params\": r, \"jsonrpc\": \"2.0\"\x7d;\x7d);") ++
  (emittedLn ind (d + 1) ("return this.callBatch<" ++ method.responseType ++ "[]>(`$\x7bthis.serviceHost\x7d/rpc`, rpcRequests, options);") ++
  emittedLnBlank ind d "\x7d"))))

/-- The stub pair of one non-streaming method, at the method depth of the
`Client` class body. -/
def stubPairText (ind : String) (serviceName : String) (m : RPCMethodDescriptor) : String :=
  unaryStubText ind 2 serviceName m ++ batchStubText ind 2 serviceName m

/-- The fixed `Client` class header (constructor, `call`, `callBatch`). -/
def clientStubHeaderText (ind : String) : String :=
  emittedLn ind 1 "export class Client \x7b" ++
  (emittedLnBlank ind 2 "private serviceHost: string;" ++
  (emittedLn ind 2 "constructor(serviceHost: string, private http: HttpClient) \x7b" ++
  (emittedLn ind 3 "this.serviceHost = serviceHost;" ++
  (emittedLnBlank ind 2 "\x7d" ++
  (emittedLn ind 2 "call<T>(url: string, request: any, options?: \x7b[key: string]: string\x7d): Observable<T> \x7b" ++
  (emittedLn ind 3 "return this.http.post<JsonRPCResponse>(url, request, options).pipe(map(response => \x7b return response.result; \x7d), catchError(error => \x7b return throwError(error); \x7d));" ++
  (emittedLnBlank ind 2 "\x7d" ++
  (emittedLn ind 2 "callBatch<T>(url: string, request: any, options?: \x7b[key: string]: string\x7d): Observable<T> \x7b" ++
  (emittedLn ind 3 "// @ts-ignore" ++
  (emittedLn ind 3 "return this.http.post<JsonRPCResponse[]>(url, request, options).pipe(map(response => \x7b return response.map((r) => \x7b return <T>r.result; \x7d) \x7d), catchError(error => \x7b return throwError(error); \x7d));" ++
  emittedLnBlank ind 2 "\x7d"))))))))))

/-- A service with one non-streaming and one client-streaming method. -/
def c6Service : ServiceDescriptorProto :=
  { name := "S", methodList := [
    { name := "M", inputType := ".pkg.Req", outputType := ".pkg.Res",
      clientStreaming := false, serverStreaming := false },
    { name := "Str", inputType := ".pkg.Req", outputType := ".pkg.Res",
      clientStreaming := true, serverStreaming := false }] }

/-- The method descriptor of `M` over the C4 fixture export map. -/
def c6StubM : RPCMethodDescriptor :=
  { nameAsPascalCase := "M", nameAsCamelCase := "m", functionName := "m",
    serviceName := "S", requestStream := false, responseStream := false,
    requestType := "dep_used_pb.Req", responseType := "f_pb.Res" }

/-- The method descriptor of the streaming `Str` over the C4 fixture
export map. -/
def c6StubStr : RPCMethodDescriptor :=
  { nameAsPascalCase := "Str", nameAsCamelCase := "str", functionName := "str",
    serviceName := "S", requestStream := true, responseStream := false,
    requestType := "dep_used_pb.Req", responseType := "f_pb.Res" }

/-- The `GetUser` method fixture. -/
def getUserMethod : MethodDescriptorProto :=
  { name := "GetUser", inputType := ".pkg.Req", outputType := ".pkg.Res",
    clientStreaming := false, serverStreaming := false }

/-- The rendering-ready descriptor of `GetUser` on `UserService` over the
C4 fixture export map. -/
def getUserStub : RPCMethodDescriptor :=
  { nameAsPascalCase := "GetUser", nameAsCamelCase := "getUser", functionName := "getUser",
    serviceName := "UserService", requestStream := false, responseStream := false,
    requestType := "dep_used_pb.Req", responseType := "f_pb.Res" }

/-- The `UserService` fixture. -/
def userService : ServiceDescriptorProto :=
  { name := "UserService", methodList := [getUserMethod] }

/-! ## C10 machinery -/
/-- The methods of a service, defaulting to `[]` on a resolution failure. -/
def serviceMethodsD (exportMap : ExportMap) (svc : ServiceDescriptorProto) :
    List RPCMethodDescriptor :=
  match serviceMethods svc exportMap with
  | .ok ms => ms
  | .error _ => []

/-- The fixed envelope types (`JsonRPCRequest` / `JsonRPCResponse`) of the
generated namespace. -/
def envelopeTypesText (ind : String) : String :=
  emittedLn ind 1 "class JsonRPCRequest \x7b" ++
  (emittedLn ind 2 "public jsonrpc: string;" ++
  (emittedLn ind 2 "public id: string;" ++
  (emittedLn ind 2 "public method: string;" ++
  (emittedLn ind 2 "public params: any;" ++
  (emittedLnBlank ind 1 "\x7d" ++
  (emittedLn ind 1 "type JsonRPCResponse = \x7b" ++
  (emittedLn ind 2 "readonly result: any;" ++
  (emittedLn ind 2 "readonly id: string;" ++
  (emittedLn ind 2 "readonly jsonrpc: string;" ++
  emittedLnBlank ind 1 "\x7d")))))))))

/-- The text of one method's type alias. -/
def methodAliasText (ind : String) (m : RPCMethodDescriptor) : String :=
  emittedLn ind 1 ("type " ++ m.serviceName ++ m.nameAsPascalCase ++ " = \x7b") ++
  (emittedLn ind 2 "readonly methodName: string;" ++
  (emittedLn ind 2 ("readonly service: typeof " ++ m.serviceName ++ ";") ++
  (emittedLn ind 2 ("readonly requestType: typeof " ++ m.requestType ++ ";") ++
  (emittedLn ind 2 ("readonly responseType: typeof " ++ m.responseType ++ ";") ++
  emittedLnBlank ind 1 "\x7d;"))))

/-- The text of one service's alias/class block. -/
def serviceAliasClassText (ind : String) (service : ServiceDescriptorProto)
    (ms : List RPCMethodDescriptor) : String :=
  concatTexts (ms.map (methodAliasText ind)) ++
  (emittedLn ind 1 ("class " ++ service.name ++ " \x7b") ++
  (emittedLn ind 2 "static readonly serviceName: string;" ++
  (concatTexts (ms.map (fun m => emittedLn ind 2 ("static readonly " ++
    m.nameAsPascalCase ++ ": " ++ m.serviceName ++ m.nameAsPascalCase ++ ";"))) ++
  emittedLnBlank ind 1 "\x7d")))

/-- The text of one service's `Client` stub class, with the blank line the
service loop appends after it. -/
def serviceStubBlockText (ind : String) (service : ServiceDescriptorProto)
    (ms : List RPCMethodDescriptor) : String :=
  clientStubHeaderText ind ++
  (concatTexts (ms.map (fun m =>
    if !m.requestStream && !m.responseStream then stubPairText ind service.name m
    else "")) ++
  emittedLnBlank ind 1 "\x7d")

/-- A schema file declaring two services. -/
def c10fd : FileDescriptorProto :=
  { name := "f.proto", package := "pkg", dependencyList := [],
    protoSyntax := "proto3",
    serviceList := [
      { name := "First", methodList := [
        { name := "M", inputType := ".pkg.Req", outputType := ".pkg.Res",
          clientStreaming := false, serverStreaming := false }] },
      { name := "Second", methodList := [
        { name := "N", inputType := ".pkg.Req", outputType := ".pkg.Res",
          clientStreaming := false, serverStreaming := false }] }] }

/-! ## Theorems -/

/-! ## Helper lemmas -/
theorem generateIndent_zero : generateIndent 0 = "" := rfl

theorem exceptIsOk_iff {ε α : Type} (e : Except ε α) :
    e.isOk = true ↔ ∃ a, e = .ok a := by
  cases e <;> simp [Except.isOk, Except.toBool]

theorem str_append_assoc (a b c : String) : a ++ b ++ c = a ++ (b ++ c) :=
  String.append_assoc a b c

/-! ## C3 -/
/-- C3: for every schema file whose service list is empty,
`generateTypescriptDefinition` returns exactly the two header comment
lines (`// package: <package>` and `// file: <filename>`) followed by one
blank line and nothing else. -/
theorem empty_services_emits_header_only (fileDescriptor : FileDescriptorProto)
    (exportMap : ExportMap) (h : fileDescriptor.serviceList = []) :
    generateTypescriptDefinition fileDescriptor exportMap =
      .ok ("// package: " ++ fileDescriptor.package ++ "\n// file: " ++
        fileDescriptor.name ++ "\n\n") := by
  simp only [generateTypescriptDefinition, h, Printer.new, generateIndent_zero,
    CodePrinter.printLn, Printer.printLn, CodePrinter.printEmptyLn, Printer.printEmptyLn,
    Printer.getOutput]
  simp only [String.empty_append, String.append_assoc, generateIndent_zero]
  rw [← String.append_assoc "\n" "// file: "]
  rfl

/-- Witness for C3 at a concrete service-less file. -/
theorem empty_services_emits_header_only_witness :
    generateTypescriptDefinition fdNoServices emptyExportMap =
      .ok "// package: pkg\n// file: f.proto\n\n" :=
  empty_services_emits_header_only fdNoServices emptyExportMap rfl

/-! ## C5 -/
/-- C5: every byte-sequence field renders with both a binary-buffer and a
string alternative — `Uint8Array | string` when singular and
`Array<Uint8Array | string>` when repeated — regardless of any per-field
`jstype` representation override. -/
theorem bytes_field_renders_byte_union (fileName : String) (exportMap : ExportMap)
    (fileDescriptor : FileDescriptorProto) (st : MsgState)
    (field : FieldDescriptorProto) (h : field.type = BYTES_TYPE) :
    printField fileName exportMap fileDescriptor st field =
      .ok (appendMemberLine st field
        (field.name ++
          (if field.label = Label.LABEL_REPEATED then ": Array<Uint8Array | string>;"
           else ": Uint8Array | string;"))) := by
  have hm : ¬ field.type = MESSAGE_TYPE := by rw [h]; decide
  have he : ¬ field.type = ENUM_TYPE := by rw [h]; decide
  by_cases hl : field.label = Label.LABEL_REPEATED <;>
    simp [printField, fieldMemberLine, appendMemberLine, hm, he, h, hl,
      MESSAGE_TYPE, BYTES_TYPE, ENUM_TYPE]

/-- Witness for C5: a concrete singular bytes field with a `jstype`
override, and a concrete repeated bytes field. -/
theorem bytes_field_renders_byte_union_witness :
    printField "f.proto" emptyExportMap fdNoServices emptyMsgState
        { name := "data", type := FieldType.TYPE_BYTES, typeName := "",
          label := Label.LABEL_OPTIONAL, oneofIndex := none,
          options := some ⟨some JSType.JS_STRING⟩ } =
      .ok (appendMemberLine emptyMsgState
        { name := "data", type := FieldType.TYPE_BYTES, typeName := "",
          label := Label.LABEL_OPTIONAL, oneofIndex := none,
          options := some ⟨some JSType.JS_STRING⟩ } "data: Uint8Array | string;") ∧
    printField "f.proto" emptyExportMap fdNoServices emptyMsgState
        { name := "blobs", type := FieldType.TYPE_BYTES, typeName := "",
          label := Label.LABEL_REPEATED, oneofIndex := none, options := none } =
      .ok (appendMemberLine emptyMsgState
        { name := "blobs", type := FieldType.TYPE_BYTES, typeName := "",
          label := Label.LABEL_REPEATED, oneofIndex := none, options := none }
        "blobs: Array<Uint8Array | string>;") := by
  constructor
  · exact bytes_field_renders_byte_union "f.proto" emptyExportMap fdNoServices emptyMsgState
      { name := "data", type := FieldType.TYPE_BYTES, typeName := "",
        label := Label.LABEL_OPTIONAL, oneofIndex := none,
        options := some ⟨some JSType.JS_STRING⟩ } rfl
  · exact bytes_field_renders_byte_union "f.proto" emptyExportMap fdNoServices emptyMsgState
      { name := "blobs", type := FieldType.TYPE_BYTES, typeName := "",
        label := Label.LABEL_REPEATED, oneofIndex := none, options := none } rfl

/-! ## C1 -/
theorem printMessage_mapEntry_eq (fileName : String) (exportMap : ExportMap)
    (msg : DescriptorProto) (il : Nat) (fd : FileDescriptorProto)
    (mo : MessageOptions) (hopt : msg.getOptions = some mo) (hmap : mo.mapEntry = true) :
    printMessage fileName exportMap msg il fd = .ok "" := by
  cases msg with
  | mk n o fs ns es os xs =>
    simp only [DescriptorProto.getOptions] at hopt
    subst hopt
    simp [printMessage, hmap]

theorem printNestedList_skip_mapEntry (fileName : String) (exportMap : ExportMap)
    (fd : FileDescriptorProto) (child : DescriptorProto) (mo : MessageOptions)
    (hopt : child.getOptions = some mo) (hmap : mo.mapEntry = true) :
    ∀ (pre post : List DescriptorProto) (il : Nat) (pr : Printer),
      printNestedList fileName exportMap (pre ++ child :: post) il fd pr =
        printNestedList fileName exportMap (pre ++ post) il fd pr := by
  intro pre
  induction pre with
  | nil =>
    intro post il pr
    simp [List.nil_append, printNestedList,
      printMessage_mapEntry_eq fileName exportMap child il fd mo hopt hmap]
  | cons a pre ih =>
    intro post il pr
    simp only [List.cons_append, printNestedList]
    cases hpm : printMessage fileName exportMap a il fd with
    | error e => rfl
    | ok out => exact ih post il _

/-- C1: a map-entry-flagged message is never emitted as a standalone type —
`printMessage` returns the empty string for it, and a nested map-entry
child contributes nothing to its parent's output — while every field whose
type references such a map entry renders as `Map<K, V>` with the entry's
recorded key/value types, the value receiving the `Uint8Array | string`
byte union when its recorded type is the byte-sequence wire type. -/
theorem map_entry_messages_never_emitted :
    (∀ fileName exportMap msg il fd mo,
      DescriptorProto.getOptions msg = some mo → mo.mapEntry = true →
      printMessage fileName exportMap msg il fd = .ok "") ∧
    (∀ fileName exportMap fd st field entry mapOptions keyTypeName valueTypeName,
      FieldDescriptorProto.type field = MESSAGE_TYPE →
      ExportMap.getMessage exportMap (strDrop field.typeName 1) = some entry →
      entryIsMapEntry entry = true →
      entry.mapFieldOptions = some mapOptions →
      getFieldType mapOptions.key.1 mapOptions.key.2 fileName exportMap = .ok keyTypeName →
      getFieldType mapOptions.value.1 mapOptions.value.2 fileName exportMap = .ok valueTypeName →
      printField fileName exportMap fd st field =
        .ok (appendMemberLine st field
          (field.name ++ ": Map<" ++ keyTypeName ++ ", " ++
            (if mapOptions.value.1 = BYTES_TYPE then "Uint8Array | string" else valueTypeName) ++
            ">;"))) ∧
    (∀ fileName exportMap fd child mo pre post il pr,
      DescriptorProto.getOptions child = some mo → mo.mapEntry = true →
      printNestedList fileName exportMap (pre ++ child :: post) il fd pr =
        printNestedList fileName exportMap (pre ++ post) il fd pr) := by
  refine ⟨?_, ?_, ?_⟩
  · intro fileName exportMap msg il fd mo hopt hmap
    exact printMessage_mapEntry_eq fileName exportMap msg il fd mo hopt hmap
  · intro fileName exportMap fd st field entry mapOptions keyTypeName valueTypeName
      htype hget hmap hmfo hkey hval
    simp only [entryIsMapEntry] at hmap
    simp [printField, appendMemberLine, htype, hget, hmap, hmfo, hkey, hval]
  · intro fileName exportMap fd child mo pre post il pr hopt hmap
    exact printNestedList_skip_mapEntry fileName exportMap fd child mo hopt hmap pre post il pr

/-- Witness for C1 at the concrete map-entry fixture. -/
theorem map_entry_messages_never_emitted_witness :
    printMessage "f.proto" mapEntryExportMap mapEntryMsg 0 fdNoServices = .ok "" ∧
    printField "f.proto" mapEntryExportMap fdNoServices emptyMsgState mapField =
      .ok (appendMemberLine emptyMsgState mapField
        "tags: Map<string, Uint8Array | string>;") ∧
    printNestedList "f.proto" mapEntryExportMap [mapEntryMsg] 1 fdNoServices (Printer.new 0) =
      printNestedList "f.proto" mapEntryExportMap [] 1 fdNoServices (Printer.new 0) := by
  refine ⟨?_, ?_, ?_⟩
  · exact map_entry_messages_never_emitted.1 "f.proto" mapEntryExportMap mapEntryMsg 0
      fdNoServices ⟨true⟩ rfl rfl
  · exact map_entry_messages_never_emitted.2.1 "f.proto" mapEntryExportMap fdNoServices
      emptyMsgState mapField
      { pkg := "pkg", fileName := "f.proto", messageOptions := some ⟨true⟩,
        mapFieldOptions := some { key := (FieldType.TYPE_STRING, ""),
                                  value := (FieldType.TYPE_BYTES, "") } }
      { key := (FieldType.TYPE_STRING, ""), value := (FieldType.TYPE_BYTES, "") }
      "string" "Uint8Array | string" rfl rfl rfl rfl rfl rfl
  · exact map_entry_messages_never_emitted.2.2 "f.proto" mapEntryExportMap fdNoServices
      mapEntryMsg ⟨true⟩ [] [] 1 (Printer.new 0) rfl rfl

/-! ## C9 -/
theorem append_array_lit (n : String) :
    n ++ ": Array<" ++ "Uint8Array | string" ++ ">;" = n ++ ": Array<Uint8Array | string>;" := by
  rw [String.append_assoc, String.append_assoc]
  rfl

/-- C9: a repeated-labelled field renders as its resolved element type
wrapped in `Array<...>` — except when the field's type is a map-entry
message, in which case the member renders as the bare `Map<K, V>` and is
never additionally wrapped in a sequence container. -/
theorem repeated_field_wraps_array_except_map (fileName : String)
    (exportMap : ExportMap) (fileDescriptor : FileDescriptorProto) (st : MsgState)
    (field : FieldDescriptorProto) (hrep : field.label = Label.LABEL_REPEATED) :
    (∀ entry mapOptions keyTypeName valueTypeName,
      FieldDescriptorProto.type field = MESSAGE_TYPE →
      ExportMap.getMessage exportMap (strDrop field.typeName 1) = some entry →
      entryIsMapEntry entry = true →
      entry.mapFieldOptions = some mapOptions →
      getFieldType mapOptions.key.1 mapOptions.key.2 fileName exportMap = .ok keyTypeName →
      getFieldType mapOptions.value.1 mapOptions.value.2 fileName exportMap = .ok valueTypeName →
      printField fileName exportMap fileDescriptor st field =
        .ok (appendMemberLine st field
          (field.name ++ ": Map<" ++ keyTypeName ++ ", " ++
            (if mapOptions.value.1 = BYTES_TYPE then "Uint8Array | string" else valueTypeName) ++
            ">;"))) ∧
    (∀ st', printField fileName exportMap fileDescriptor st field = .ok st' →
      (∀ entry, FieldDescriptorProto.type field = MESSAGE_TYPE →
        ExportMap.getMessage exportMap (strDrop field.typeName 1) = some entry →
        entryIsMapEntry entry = false) →
      ∃ elemType, st' = appendMemberLine st field
        (field.name ++ ": Array<" ++ elemType ++ ">;")) := by
  constructor
  · intro entry mapOptions keyTypeName valueTypeName htype hget hmap hmfo hkey hval
    simp only [entryIsMapEntry] at hmap
    simp [printField, appendMemberLine, htype, hget, hmap, hmfo, hkey, hval]
  · intro st' hok hnm
    by_cases hm : field.type = FieldType.TYPE_MESSAGE
    · cases hget : exportMap.getMessage (strDrop field.typeName 1) with
      | none => simp [printField, hm, hget, MESSAGE_TYPE, BYTES_TYPE, ENUM_TYPE] at hok
      | some entry =>
        have hmap := hnm entry (by simpa [MESSAGE_TYPE] using hm) hget
        simp only [entryIsMapEntry] at hmap
        have hb : field.type ≠ FieldType.TYPE_BYTES := by rw [hm]; decide
        simp [printField, appendMemberLine, hm, hget, hmap, fieldMemberLine, hrep, hb,
          MESSAGE_TYPE, BYTES_TYPE, ENUM_TYPE] at hok
        exact ⟨_, hok.symm⟩
    · by_cases he : field.type = FieldType.TYPE_ENUM
      · cases hget : exportMap.getEnum (strDrop field.typeName 1) with
        | none => simp [printField, hm, he, hget, MESSAGE_TYPE, BYTES_TYPE, ENUM_TYPE] at hok
        | some entry =>
          have hb : field.type ≠ FieldType.TYPE_BYTES := by rw [he]; decide
          simp [printField, appendMemberLine, hm, he, hget, fieldMemberLine, hrep, hb,
            MESSAGE_TYPE, BYTES_TYPE, ENUM_TYPE] at hok
          exact ⟨_, hok.symm⟩
      · by_cases hb : field.type = FieldType.TYPE_BYTES
        · simp [printField, appendMemberLine, hm, he, hb, fieldMemberLine, hrep,
            MESSAGE_TYPE, BYTES_TYPE, ENUM_TYPE] at hok
          refine ⟨"Uint8Array | string", ?_⟩
          rw [append_array_lit]
          exact hok.symm
        · simp [printField, appendMemberLine, hm, he, hb, fieldMemberLine, hrep,
            MESSAGE_TYPE, BYTES_TYPE, ENUM_TYPE] at hok
          exact ⟨_, hok.symm⟩

/-- Witness for C9: the concrete repeated map field renders as a bare
`Map`, and a concrete repeated scalar field renders `Array`-wrapped. -/
theorem repeated_field_wraps_array_except_map_witness :
    printField "f.proto" mapEntryExportMap fdNoServices emptyMsgState mapField =
      .ok (appendMemberLine emptyMsgState mapField
        "tags: Map<string, Uint8Array | string>;") ∧
    (∃ elemType,
      appendMemberLine emptyMsgState
          { name := "ids", type := FieldType.TYPE_INT32, typeName := "",
            label := Label.LABEL_REPEATED, oneofIndex := none, options := none }
          "ids: Array<number>;" =
        appendMemberLine emptyMsgState
          { name := "ids", type := FieldType.TYPE_INT32, typeName := "",
            label := Label.LABEL_REPEATED, oneofIndex := none, options := none }
          ("ids" ++ ": Array<" ++ elemType ++ ">;")) := by
  constructor
  · exact (repeated_field_wraps_array_except_map "f.proto" mapEntryExportMap fdNoServices
      emptyMsgState mapField rfl).1
      { pkg := "pkg", fileName := "f.proto", messageOptions := some ⟨true⟩,
        mapFieldOptions := some { key := (FieldType.TYPE_STRING, ""),
                                  value := (FieldType.TYPE_BYTES, "") } }
      { key := (FieldType.TYPE_STRING, ""), value := (FieldType.TYPE_BYTES, "") }
      "string" "Uint8Array | string" rfl rfl rfl rfl rfl rfl
  · exact (repeated_field_wraps_array_except_map "f.proto" mapEntryExportMap fdNoServices
      emptyMsgState
      { name := "ids", type := FieldType.TYPE_INT32, typeName := "",
        label := Label.LABEL_REPEATED, oneofIndex := none, options := none } rfl).2
      (appendMemberLine emptyMsgState
        { name := "ids", type := FieldType.TYPE_INT32, typeName := "",
          label := Label.LABEL_REPEATED, oneofIndex := none, options := none }
        "ids: Array<number>;")
      rfl (fun entry h _ => by simp [MESSAGE_TYPE] at h)

/-- Counterexample to C8 as stated: a singular non-bytes message-typed
field in a non-legacy (proto3) file — for which the claim requires the
optional marker — whose type resolves to a map-entry message: the member
renders as a bare `Map` line containing no `?` marker at all. -/
theorem singular_field_optional_marker_counterexample :
    (singularMapField.label ≠ Label.LABEL_REPEATED ∧
     singularMapField.type ≠ BYTES_TYPE ∧
     singularMapField.type = MESSAGE_TYPE ∧
     isProto2 fdNoServices = false) ∧
    printField "f.proto" mapEntryExportMap fdNoServices emptyMsgState singularMapField =
      .ok (appendMemberLine emptyMsgState singularMapField
        "tags1: Map<string, Uint8Array | string>;") ∧
    countChar "tags1: Map<string, Uint8Array | string>;" '?' = 0 := by
  refine ⟨⟨by decide, by decide, rfl, rfl⟩, ?_, by decide⟩
  rfl

/-- C8 (amended): for every singular non-bytes field whose type reference
does not resolve to a synthetic map-entry message, the emitted member
carries the optional marker `?` exactly when the field is message-typed
and the file is not legacy (proto2) or the field's label is optional, or
the field is non-message-typed and the file is legacy. -/
theorem singular_field_optional_marker (fileName : String) (exportMap : ExportMap)
    (fileDescriptor : FileDescriptorProto) (st : MsgState) (field : FieldDescriptorProto)
    (h1 : field.label ≠ Label.LABEL_REPEATED)
    (h2 : field.type ≠ BYTES_TYPE)
    (h3 : singularFieldResolvesNonMap exportMap field = true) :
    ∃ exportType, printField fileName exportMap fileDescriptor st field =
      .ok (appendMemberLine st field
        (normaliseFieldObjectName field.name ++
          (if (field.type = MESSAGE_TYPE ∧
                (¬ isProto2 fileDescriptor = true ∨ field.label = Label.LABEL_OPTIONAL)) ∨
              (¬ field.type = MESSAGE_TYPE ∧ isProto2 fileDescriptor = true)
           then "?" else "") ++ ": " ++ exportType ++ ";")) := by
  have h2' : field.type ≠ FieldType.TYPE_BYTES := by simpa [BYTES_TYPE] using h2
  by_cases hm : field.type = FieldType.TYPE_MESSAGE
  · cases hget : exportMap.getMessage (strDrop field.typeName 1) with
    | none => simp [singularFieldResolvesNonMap, hm, hget, MESSAGE_TYPE, ENUM_TYPE] at h3
    | some entry =>
      have hmap : entryIsMapEntry entry = false := by
        simp [singularFieldResolvesNonMap, hm, hget, MESSAGE_TYPE, ENUM_TYPE] at h3
        simpa using h3
      simp only [entryIsMapEntry] at hmap
      refine ⟨if entry.fileName = fileName then
          withinNamespace (strDrop field.typeName 1) entry.pkg
        else
          filePathToPseudoNamespace entry.fileName ++ "." ++
            withinNamespace (strDrop field.typeName 1) entry.pkg, ?_⟩
      by_cases hp : isProto2 fileDescriptor = true <;>
        by_cases hl : field.label = Label.LABEL_OPTIONAL <;>
          simp [printField, appendMemberLine, fieldMemberLine, hm, hget, hmap, h1, h2',
            hp, hl, MESSAGE_TYPE, BYTES_TYPE, ENUM_TYPE]
  · by_cases he : field.type = FieldType.TYPE_ENUM
    · cases hget : exportMap.getEnum (strDrop field.typeName 1) with
      | none => simp [singularFieldResolvesNonMap, hm, he, hget, MESSAGE_TYPE, ENUM_TYPE] at h3
      | some entry =>
        refine ⟨if entry.fileName = fileName then
            withinNamespace (strDrop field.typeName 1) entry.pkg
          else
            filePathToPseudoNamespace entry.fileName ++ "." ++
              withinNamespace (strDrop field.typeName 1) entry.pkg, ?_⟩
        by_cases hp : isProto2 fileDescriptor = true <;>
          simp [printField, appendMemberLine, fieldMemberLine, hm, he, hget, h1, h2',
            hp, MESSAGE_TYPE, BYTES_TYPE, ENUM_TYPE]
    · refine ⟨(match field.options with
        | some opts =>
          match opts.jstype with
          | some JSType.JS_NUMBER => "number"
          | some JSType.JS_STRING => "string"
          | some JSType.JS_NORMAL => getTypeName field.type
          | none => getTypeName field.type
        | none => getTypeName field.type), ?_⟩
      by_cases hp : isProto2 fileDescriptor = true <;>
        simp [printField, appendMemberLine, fieldMemberLine, hm, he, h1, h2',
          hp, MESSAGE_TYPE, BYTES_TYPE, ENUM_TYPE]

/-- Witness for C8 (amended) at a concrete proto3 singular message-typed
field. -/
theorem singular_field_optional_marker_witness :
    ∃ exportType,
      printField "f.proto" c8ExportMap fdNoServices emptyMsgState
          { name := "other", type := FieldType.TYPE_MESSAGE, typeName := ".pkg.Other",
            label := Label.LABEL_OPTIONAL, oneofIndex := none, options := none } =
        .ok (appendMemberLine emptyMsgState
          { name := "other", type := FieldType.TYPE_MESSAGE, typeName := ".pkg.Other",
            label := Label.LABEL_OPTIONAL, oneofIndex := none, options := none }
          (normaliseFieldObjectName "other" ++
            (if (FieldType.TYPE_MESSAGE = MESSAGE_TYPE ∧
                  (¬ isProto2 fdNoServices = true ∨
                    Label.LABEL_OPTIONAL = Label.LABEL_OPTIONAL)) ∨
                (¬ FieldType.TYPE_MESSAGE = MESSAGE_TYPE ∧ isProto2 fdNoServices = true)
             then "?" else "") ++ ": " ++ exportType ++ ";")) :=
  singular_field_optional_marker "f.proto" c8ExportMap fdNoServices emptyMsgState
    { name := "other", type := FieldType.TYPE_MESSAGE, typeName := ".pkg.Other",
      label := Label.LABEL_OPTIONAL, oneofIndex := none, options := none }
    (by decide) (by decide) rfl

/-! ## C2 -/
theorem printField_missing_message_export (fileName : String) (exportMap : ExportMap)
    (fileDescriptor : FileDescriptorProto) (st : MsgState) (field : FieldDescriptorProto)
    (hm : field.type = MESSAGE_TYPE)
    (hget : exportMap.getMessage (strDrop field.typeName 1) = none) :
    printField fileName exportMap fileDescriptor st field =
      .error ("No message export for: " ++ strDrop field.typeName 1) := by
  simp [printField, hm, hget, MESSAGE_TYPE, BYTES_TYPE, ENUM_TYPE]

theorem printField_missing_enum_export (fileName : String) (exportMap : ExportMap)
    (fileDescriptor : FileDescriptorProto) (st : MsgState) (field : FieldDescriptorProto)
    (he : field.type = ENUM_TYPE)
    (hget : exportMap.getEnum (strDrop field.typeName 1) = none) :
    printField fileName exportMap fileDescriptor st field =
      .error ("No enum export for: " ++ strDrop field.typeName 1) := by
  simp [printField, he, hget, MESSAGE_TYPE, BYTES_TYPE, ENUM_TYPE]

theorem printFields_error_of_mem (fileName : String) (exportMap : ExportMap)
    (fileDescriptor : FileDescriptorProto) (field : FieldDescriptorProto) (ef : String)
    (hf : ∀ st, printField fileName exportMap fileDescriptor st field = .error ef) :
    ∀ (l : List FieldDescriptorProto), field ∈ l →
      ∀ st, ∃ e, printFields fileName exportMap fileDescriptor l st = .error e := by
  intro l
  induction l with
  | nil => intro hmem; cases hmem
  | cons a rest ih =>
    intro hmem st
    rcases List.mem_cons.1 hmem with h | h
    · subst h
      exact ⟨ef, by simp [printFields, hf st]⟩
    · cases hpf : printField fileName exportMap fileDescriptor st a with
      | error e => exact ⟨e, by simp [printFields, hpf]⟩
      | ok st' =>
        obtain ⟨e, he⟩ := ih h st'
        exact ⟨e, by simp [printFields, hpf, he]⟩

theorem printMessage_error_of_bad_field (fileName : String) (exportMap : ExportMap)
    (msg : DescriptorProto) (il : Nat) (fd : FileDescriptorProto)
    (hnm : (match DescriptorProto.getOptions msg with
            | some o => o.mapEntry
            | none => false) = false)
    (field : FieldDescriptorProto) (ef : String)
    (hmem : field ∈ msg.getFieldList)
    (hf : ∀ st, printField fileName exportMap fd st field = .error ef) :
    ∃ e, printMessage fileName exportMap msg il fd = .error e := by
  cases msg with
  | mk n o fs ns es os xs =>
    simp only [DescriptorProto.getOptions] at hnm
    simp only [DescriptorProto.getFieldList] at hmem
    obtain ⟨e, he⟩ := printFields_error_of_mem fileName exportMap fd field ef hf fs hmem
      ⟨fun _ => [], (Printer.new il).printLn ("export class " ++ n ++ " \x7b")⟩
    exact ⟨e, by simp [printMessage, hnm, he]⟩

theorem printField_ok_of_resolves (fileName : String) (exportMap : ExportMap)
    (fileDescriptor : FileDescriptorProto) (field : FieldDescriptorProto)
    (h : fieldResolvesB fileName exportMap field = true) :
    ∀ st, ∃ st', printField fileName exportMap fileDescriptor st field = .ok st' := by
  intro st
  cases hpf : printField fileName exportMap fileDescriptor st field with
  | ok st' => exact ⟨st', rfl⟩
  | error e =>
    exfalso
    by_cases hm : field.type = FieldType.TYPE_MESSAGE
    · cases hget : exportMap.getMessage (strDrop field.typeName 1) with
      | none => simp [fieldResolvesB, hm, hget, MESSAGE_TYPE, ENUM_TYPE] at h
      | some entry =>
        by_cases hmap : entryIsMapEntry entry = true
        · cases hmfo : entry.mapFieldOptions with
          | none => simp [fieldResolvesB, hm, hget, hmap, hmfo, MESSAGE_TYPE, ENUM_TYPE] at h
          | some mapOptions =>
            simp only [fieldResolvesB, hm, hget, hmap, hmfo, MESSAGE_TYPE, ENUM_TYPE,
              if_true, if_pos, Bool.and_eq_true] at h
            obtain ⟨kt, hkt⟩ := (exceptIsOk_iff _).1 h.1
            obtain ⟨vt, hvt⟩ := (exceptIsOk_iff _).1 h.2
            simp only [entryIsMapEntry] at hmap
            simp [printField, hm, hget, hmap, hmfo, hkt, hvt,
              MESSAGE_TYPE, BYTES_TYPE, ENUM_TYPE] at hpf
        · have hmap' : (match entry.messageOptions with
              | some o => o.mapEntry
              | none => false) = false := by
            simpa [entryIsMapEntry] using hmap
          simp [printField, hm, hget, hmap',
            MESSAGE_TYPE, BYTES_TYPE, ENUM_TYPE] at hpf
    · by_cases he : field.type = FieldType.TYPE_ENUM
      · cases hget : exportMap.getEnum (strDrop field.typeName 1) with
        | none => simp [fieldResolvesB, hm, he, hget, MESSAGE_TYPE, ENUM_TYPE] at h
        | some entry =>
          simp [printField, hm, he, hget, MESSAGE_TYPE, BYTES_TYPE, ENUM_TYPE] at hpf
      · simp [printField, hm, he, MESSAGE_TYPE, BYTES_TYPE, ENUM_TYPE] at hpf

theorem printFields_ok_of_resolves (fileName : String) (exportMap : ExportMap)
    (fileDescriptor : FileDescriptorProto) :
    ∀ (l : List FieldDescriptorProto),
      l.all (fieldResolvesB fileName exportMap) = true →
      ∀ st, ∃ st', printFields fileName exportMap fileDescriptor l st = .ok st' := by
  intro l
  induction l with
  | nil => exact fun _ st => ⟨st, rfl⟩
  | cons a rest ih =>
    intro h st
    simp only [List.all_cons, Bool.and_eq_true] at h
    obtain ⟨st1, h1⟩ := printField_ok_of_resolves fileName exportMap fileDescriptor a h.1 st
    obtain ⟨st2, h2⟩ := ih h.2 st1
    exact ⟨st2, by simp [printFields, h1, h2]⟩

theorem printGen_ok_aux (fileName : String) (exportMap : ExportMap)
    (fileDescriptor : FileDescriptorProto) :
    ∀ (k : Nat),
      (∀ (msg : DescriptorProto) (il : Nat), sizeOf msg ≤ k →
        messageResolvesB fileName exportMap msg = true →
        ∃ s, printMessage fileName exportMap msg il fileDescriptor = .ok s) ∧
      (∀ (l : List DescriptorProto) (il : Nat) (pr : Printer), sizeOf l ≤ k →
        nestedListResolvesB fileName exportMap l = true →
        ∃ pr', printNestedList fileName exportMap l il fileDescriptor pr = .ok pr') := by
  intro k
  induction k with
  | zero =>
    constructor
    · intro msg il hk
      exfalso
      cases msg with
      | mk n o fs ns es os xs =>
        simp only [DescriptorProto.mk.sizeOf_spec] at hk
        omega
    · intro l il pr hk hres
      cases l with
      | nil => exact ⟨pr, rfl⟩
      | cons m rest =>
        exfalso
        simp only [List.cons.sizeOf_spec] at hk
        omega
  | succ k ih =>
    constructor
    · intro msg il hk hres
      cases msg with
      | mk n o fs ns es os xs =>
        simp only [messageResolvesB, Bool.and_eq_true] at hres
        cases hmo : (match o with | some mo => mo.mapEntry | none => false) with
        | true => exact ⟨"", by simp [printMessage, hmo]⟩
        | false =>
          obtain ⟨st', hst⟩ := printFields_ok_of_resolves fileName exportMap fileDescriptor
            fs hres.1 ⟨fun _ => [], (Printer.new il).printLn ("export class " ++ n ++ " \x7b")⟩
          have hns : sizeOf ns ≤ k := by
            simp only [DescriptorProto.mk.sizeOf_spec] at hk; omega
          obtain ⟨pr', hpr⟩ := ih.2 ns (il + 1) st'.printer hns hres.2
          cases hpm : printMessage fileName exportMap (.mk n o fs ns es os xs) il fileDescriptor with
          | ok s => exact ⟨s, rfl⟩
          | error e =>
            exfalso
            simp [printMessage, hmo, hst, hpr] at hpm
    · intro l il pr hk hres
      cases l with
      | nil => exact ⟨pr, rfl⟩
      | cons m rest =>
        simp only [nestedListResolvesB, Bool.and_eq_true] at hres
        have hm : sizeOf m ≤ k := by simp only [List.cons.sizeOf_spec] at hk; omega
        have hr : sizeOf rest ≤ k := by simp only [List.cons.sizeOf_spec] at hk; omega
        obtain ⟨s, hs⟩ := ih.1 m il hm hres.1
        obtain ⟨pr', hpr⟩ := ih.2 rest il
          (if s ≠ "" then pr.print s else pr) hr hres.2
        exact ⟨pr', by simp only [printNestedList, hs, hpr]⟩

/-- C2: a message- or enum-typed field whose full type name (leading dot
stripped) has no export-map entry makes `printMessage` throw the
corresponding missing-export error, so the whole invocation returns no
output for that message; and when every referenced type resolves, the
throwing branches are unreachable and `printMessage` succeeds. -/
theorem missing_export_aborts_message :
    (∀ fileName exportMap fileDescriptor st field,
      FieldDescriptorProto.type field = MESSAGE_TYPE →
      ExportMap.getMessage exportMap (strDrop field.typeName 1) = none →
      printField fileName exportMap fileDescriptor st field =
        .error ("No message export for: " ++ strDrop field.typeName 1)) ∧
    (∀ fileName exportMap fileDescriptor st field,
      FieldDescriptorProto.type field = ENUM_TYPE →
      ExportMap.getEnum exportMap (strDrop field.typeName 1) = none →
      printField fileName exportMap fileDescriptor st field =
        .error ("No enum export for: " ++ strDrop field.typeName 1)) ∧
    (∀ fileName exportMap msg il fd field,
      (match DescriptorProto.getOptions msg with
       | some o => o.mapEntry
       | none => false) = false →
      field ∈ DescriptorProto.getFieldList msg →
      ((FieldDescriptorProto.type field = MESSAGE_TYPE ∧
        ExportMap.getMessage exportMap (strDrop field.typeName 1) = none) ∨
       (FieldDescriptorProto.type field = ENUM_TYPE ∧
        ExportMap.getEnum exportMap (strDrop field.typeName 1) = none)) →
      ∃ e, printMessage fileName exportMap msg il fd = .error e) ∧
    (∀ fileName exportMap msg il fd,
      messageResolvesB fileName exportMap msg = true →
      ∃ s, printMessage fileName exportMap msg il fd = .ok s) := by
  refine ⟨printField_missing_message_export, printField_missing_enum_export, ?_, ?_⟩
  · intro fileName exportMap msg il fd field hnm hmem hbad
    rcases hbad with ⟨hm, hget⟩ | ⟨he, hget⟩
    · exact printMessage_error_of_bad_field fileName exportMap msg il fd hnm field _ hmem
        (fun st => printField_missing_message_export fileName exportMap fd st field hm hget)
    · exact printMessage_error_of_bad_field fileName exportMap msg il fd hnm field _ hmem
        (fun st => printField_missing_enum_export fileName exportMap fd st field he hget)
  · intro fileName exportMap msg il fd hres
    exact (printGen_ok_aux fileName exportMap fd (sizeOf msg)).1 msg il le_rfl hres

/-- Witness for C2 at the concrete fixtures. -/
theorem missing_export_aborts_message_witness :
    printField "f.proto" emptyExportMap fdNoServices emptyMsgState missingMsgField =
      .error "No message export for: pkg.Missing" ∧
    printField "f.proto" emptyExportMap fdNoServices emptyMsgState missingEnumField =
      .error "No enum export for: pkg.MissingE" ∧
    (∃ e, printMessage "f.proto" emptyExportMap badMsg 0 fdNoServices = .error e) ∧
    (∃ s, printMessage "f.proto" emptyExportMap goodMsg 0 fdNoServices = .ok s) := by
  refine ⟨?_, ?_, ?_, ?_⟩
  · exact missing_export_aborts_message.1 "f.proto" emptyExportMap fdNoServices
      emptyMsgState missingMsgField rfl rfl
  · exact missing_export_aborts_message.2.1 "f.proto" emptyExportMap fdNoServices
      emptyMsgState missingEnumField rfl rfl
  · exact missing_export_aborts_message.2.2.1 "f.proto" emptyExportMap badMsg 0
      fdNoServices missingMsgField rfl (by simp [badMsg, DescriptorProto.getFieldList])
      (Or.inl ⟨rfl, rfl⟩)
  · exact missing_export_aborts_message.2.2.2 "f.proto" emptyExportMap goodMsg 0
      fdNoServices rfl

/-! ## C4 -/
theorem methodUsesB_iff (exportMap : ExportMap) (pseudoNamespace : String)
    (method : MethodDescriptorProto) :
    methodUsesB exportMap pseudoNamespace method = true ↔
      ∃ ct, getCallingTypes method exportMap = .ok ct ∧
        (strStartsWith ct.requestType (pseudoNamespace ++ ".") = true ∨
         strStartsWith ct.responseType (pseudoNamespace ++ ".") = true) := by
  unfold methodUsesB
  cases hct : getCallingTypes method exportMap with
  | error e => simp
  | ok ct => simp [Bool.or_eq_true]

theorem anyMethodUses_eq (pseudoNamespace : String) (exportMap : ExportMap) :
    ∀ (l : List MethodDescriptorProto),
      l.all (fun m => (getCallingTypes m exportMap).isOk) = true →
      anyMethodUses pseudoNamespace exportMap l =
        .ok (l.any (methodUsesB exportMap pseudoNamespace)) := by
  intro l
  induction l with
  | nil => intro _; rfl
  | cons m rest ih =>
    intro h
    simp only [List.all_cons, Bool.and_eq_true] at h
    obtain ⟨ct, hct⟩ := (exceptIsOk_iff _).1 h.1
    cases hb : (strStartsWith ct.requestType (pseudoNamespace ++ ".") ||
        strStartsWith ct.responseType (pseudoNamespace ++ ".")) with
    | true => simp [anyMethodUses, methodUsesNamespace, methodUsesB, hct, hb, List.any_cons]
    | false =>
      simp [anyMethodUses, methodUsesNamespace, methodUsesB, hct, hb, List.any_cons, ih h.2]

theorem anyServiceUses_eq (pseudoNamespace : String) (exportMap : ExportMap) :
    ∀ (l : List ServiceDescriptorProto),
      l.all (fun s => s.methodList.all (fun m => (getCallingTypes m exportMap).isOk)) = true →
      anyServiceUses pseudoNamespace exportMap l =
        .ok (l.any (fun s => s.methodList.any (methodUsesB exportMap pseudoNamespace))) := by
  intro l
  induction l with
  | nil => intro _; rfl
  | cons s rest ih =>
    intro h
    simp only [List.all_cons, Bool.and_eq_true] at h
    have hm := anyMethodUses_eq pseudoNamespace exportMap s.methodList h.1
    cases hb : s.methodList.any (methodUsesB exportMap pseudoNamespace) with
    | true => simp [anyServiceUses, hm, hb, List.any_cons]
    | false => simp [anyServiceUses, hm, hb, List.any_cons, ih h.2]

theorem isUsed_eq (fileDescriptor : FileDescriptorProto) (exportMap : ExportMap)
    (hres : callingTypesResolveB fileDescriptor exportMap = true) (dependency : String) :
    isUsed fileDescriptor (filePathToPseudoNamespace dependency) exportMap =
      .ok (dependencyUsedB fileDescriptor exportMap dependency) := by
  unfold isUsed dependencyUsedB
  exact anyServiceUses_eq (filePathToPseudoNamespace dependency) exportMap
    fileDescriptor.serviceList hres

theorem usedDependencies_eq (fileDescriptor : FileDescriptorProto) (exportMap : ExportMap)
    (hres : callingTypesResolveB fileDescriptor exportMap = true) :
    ∀ (l : List String),
      usedDependencies fileDescriptor exportMap l =
        .ok (l.filter (dependencyUsedB fileDescriptor exportMap)) := by
  intro l
  induction l with
  | nil => rfl
  | cons dependency rest ih =>
    have hu := isUsed_eq fileDescriptor exportMap hres dependency
    cases hb : dependencyUsedB fileDescriptor exportMap dependency with
    | true => simp [usedDependencies, hu, hb, ih, List.filter_cons]
    | false => simp [usedDependencies, hu, hb, ih, List.filter_cons]

/-- C4: under resolvable calling types, the imports list is exactly the
host file's own entry first, followed by the entries of those dependencies
used by some method's request or response type, in dependency-declaration
order; and the used-dependency test holds exactly when some method of some
service references a type in the dependency's pseudo-namespace. -/
theorem imports_host_first_then_used_dependencies (fileDescriptor : FileDescriptorProto)
    (exportMap : ExportMap)
    (hres : callingTypesResolveB fileDescriptor exportMap = true) :
    RPCServiceDescriptor.imports fileDescriptor exportMap =
      .ok (hostImport fileDescriptor ::
        (fileDescriptor.dependencyList.filter (dependencyUsedB fileDescriptor exportMap)).map
          (dependencyImport (getPathToRoot fileDescriptor.name))) ∧
    (∀ dependency, dependencyUsedB fileDescriptor exportMap dependency = true ↔
      DependencyUsed fileDescriptor exportMap dependency) := by
  constructor
  · unfold RPCServiceDescriptor.imports
    simp [usedDependencies_eq fileDescriptor exportMap hres]
  · intro dependency
    unfold dependencyUsedB DependencyUsed
    simp [List.any_eq_true, methodUsesB_iff]

/-- Witness for C4: the used dependency is imported after the host entry,
the unused one elided. -/
theorem imports_host_first_then_used_dependencies_witness :
    RPCServiceDescriptor.imports c4fd c4ExportMap =
      .ok [⟨"f_pb", "./f_pb"⟩, ⟨"dep_used_pb", "./dep/used_pb"⟩] ∧
    (dependencyUsedB c4fd c4ExportMap "dep/used.proto" = true ↔
      DependencyUsed c4fd c4ExportMap "dep/used.proto") :=
  ⟨(imports_host_first_then_used_dependencies c4fd c4ExportMap rfl).1,
   (imports_host_first_then_used_dependencies c4fd c4ExportMap rfl).2 "dep/used.proto"⟩

theorem printUnaryStub_append (d : Nat) (ind out : String)
    (service : ServiceDescriptorProto) (method : RPCMethodDescriptor) :
    printUnaryStubMethodTypes ⟨d, ⟨ind, out⟩⟩ service method =
      ⟨d, ⟨ind, out ++ unaryStubText ind d service.name method⟩⟩ := by
  simp [printUnaryStubMethodTypes, CodePrinter.printLn, CodePrinter.indent, CodePrinter.dedent,
    CodePrinter.printEmptyLn, Printer.printLn, Printer.printEmptyLn, unaryStubText, emittedLn,
    emittedLnBlank, String.append_assoc]

theorem printBatchStub_append (d : Nat) (ind out : String)
    (service : ServiceDescriptorProto) (method : RPCMethodDescriptor) :
    printUnaryStubBatchMethodTypes ⟨d, ⟨ind, out⟩⟩ service method =
      ⟨d, ⟨ind, out ++ batchStubText ind d service.name method⟩⟩ := by
  simp [printUnaryStubBatchMethodTypes, CodePrinter.printLn, CodePrinter.indent, CodePrinter.dedent,
    CodePrinter.printEmptyLn, Printer.printLn, Printer.printEmptyLn, batchStubText, emittedLn,
    emittedLnBlank, String.append_assoc]

theorem stubMethodsFold_append (service : ServiceDescriptorProto) (ind : String) :
    ∀ (ms : List RPCMethodDescriptor) (out : String),
      stubMethodsFold service ms ⟨2, ⟨ind, out⟩⟩ =
        ⟨2, ⟨ind, out ++ concatTexts (ms.map (fun m =>
          if !m.requestStream && !m.responseStream then stubPairText ind service.name m
          else ""))⟩⟩ := by
  intro ms
  induction ms with
  | nil => intro out; simp [stubMethodsFold, concatTexts]
  | cons m rest ih =>
    intro out
    cases hb : (!m.requestStream && !m.responseStream) with
    | true =>
      simp only [stubMethodsFold, List.foldl_cons, hb, if_true]
      rw [printUnaryStub_append, printBatchStub_append]
      have := ih (out ++ unaryStubText ind 2 service.name m ++ batchStubText ind 2 service.name m)
      simp only [stubMethodsFold] at this
      rw [this]
      simp [concatTexts, stubPairText, hb, String.append_assoc]
    | false =>
      simp only [stubMethodsFold, List.foldl_cons, hb, if_false, Bool.false_eq_true]
      have := ih out
      simp only [stubMethodsFold] at this
      rw [this]
      simp [concatTexts, hb, String.empty_append]

theorem methodDescriptorsOf_forall₂ (serviceName : String) (exportMap : ExportMap) :
    ∀ (l : List MethodDescriptorProto) (ms : List RPCMethodDescriptor),
      methodDescriptorsOf serviceName exportMap l = .ok ms →
      List.Forall₂ (fun (meth : MethodDescriptorProto) (md : RPCMethodDescriptor) =>
        md.nameAsPascalCase = meth.name ∧
        md.nameAsCamelCase = lowerFirstChar meth.name ∧
        md.functionName = normaliseFieldObjectName meth.name ∧
        md.serviceName = serviceName ∧
        md.requestStream = meth.clientStreaming ∧
        md.responseStream = meth.serverStreaming ∧
        ∃ ct, getCallingTypes meth exportMap = .ok ct ∧
          md.requestType = ct.requestType ∧ md.responseType = ct.responseType) l ms := by
  intro l
  induction l with
  | nil =>
    intro ms h
    simp only [methodDescriptorsOf] at h
    cases h
    exact List.Forall₂.nil
  | cons m rest ih =>
    intro ms h
    simp only [methodDescriptorsOf] at h
    cases hct : getCallingTypes m exportMap with
    | error e => simp only [hct] at h; exact Except.noConfusion h
    | ok ct =>
      simp only [hct] at h
      cases hrest : methodDescriptorsOf serviceName exportMap rest with
      | error e => simp only [hrest] at h; exact Except.noConfusion h
      | ok tail =>
        simp only [hrest, Except.ok.injEq] at h
        subst h
        exact List.Forall₂.cons ⟨rfl, rfl, rfl, rfl, rfl, rfl, ct, hct, rfl, rfl⟩
          (ih tail hrest)

/-! ## C6 -/
/-- C6: under resolvable calling types, the `Client` stub class consists of
the fixed header followed by, per method, exactly one unary stub and one
batch stub when the method is non-streaming and nothing at all when it is
client- or server-streaming — no error is raised and sibling methods are
unaffected. -/
theorem streaming_methods_silently_skipped (service : ServiceDescriptorProto)
    (exportMap : ExportMap) (ind out : String) (ms : List RPCMethodDescriptor)
    (hms : serviceMethods service exportMap = .ok ms) :
    printServiceStubTypes ⟨ind, out⟩ service exportMap =
      .ok ⟨ind, out ++ (clientStubHeaderText ind ++
        (concatTexts (ms.map (fun m =>
          if !m.requestStream && !m.responseStream then stubPairText ind service.name m
          else "")) ++
        emittedLn ind 1 "\x7d"))⟩ ∧
    List.Forall₂ (fun (meth : MethodDescriptorProto) (md : RPCMethodDescriptor) =>
      md.requestStream = meth.clientStreaming ∧ md.responseStream = meth.serverStreaming)
      service.methodList ms := by
  constructor
  · simp [printServiceStubTypes, CodePrinter.printLn, CodePrinter.printEmptyLn,
      CodePrinter.indent, CodePrinter.dedent, Printer.printLn, Printer.printEmptyLn,
      hms, stubMethodsFold_append, clientStubHeaderText, emittedLn, emittedLnBlank,
      String.append_assoc]
  · exact (methodDescriptorsOf_forall₂ service.name exportMap service.methodList ms hms).imp
      (fun _ _ h => ⟨h.2.2.2.2.1, h.2.2.2.2.2.1⟩)

/-- Witness for C6: the streaming sibling contributes nothing while the
non-streaming method contributes its stub pair. -/
theorem streaming_methods_silently_skipped_witness :
    printServiceStubTypes ⟨"", ""⟩ c6Service c4ExportMap =
      .ok ⟨"", "" ++ (clientStubHeaderText "" ++
        (concatTexts ([c6StubM, c6StubStr].map (fun m =>
          if !m.requestStream && !m.responseStream then stubPairText "" "S" m
          else "")) ++
        emittedLn "" 1 "\x7d"))⟩ ∧
    List.Forall₂ (fun (meth : MethodDescriptorProto) (md : RPCMethodDescriptor) =>
      md.requestStream = meth.clientStreaming ∧ md.responseStream = meth.serverStreaming)
      c6Service.methodList [c6StubM, c6StubStr] :=
  streaming_methods_silently_skipped c6Service c4ExportMap "" "" [c6StubM, c6StubStr] rfl

/-! ## C7 -/
/-- C7: every rendering-ready method descriptor carries the normalized call
identifier as its stub name and the original declared name for the
envelope; the unary stub takes `(requestMessage, options?)` and posts the
envelope `{"id": "1", "method": "<Service>.<Method>", "params":
requestMessage, "jsonrpc": "2.0"}`; the batch stub is the same identifier
suffixed `Batch`, takes an array, and maps each element into an envelope of
the identical shape; and the normalization maps `GetUser` to `getUser`. -/
theorem stubs_use_normalized_name_and_fixed_envelope :
    (∀ serviceName exportMap l ms,
      methodDescriptorsOf serviceName exportMap l = .ok ms →
      List.Forall₂ (fun (meth : MethodDescriptorProto) (md : RPCMethodDescriptor) =>
        md.functionName = normaliseFieldObjectName meth.name ∧
        md.nameAsPascalCase = meth.name ∧ md.serviceName = serviceName) l ms) ∧
    (∀ d ind out service method,
      printUnaryStubMethodTypes ⟨d, ⟨ind, out⟩⟩ service method =
        ⟨d, ⟨ind, out ++
          (emittedLn ind d (method.functionName ++ "(") ++
          (emittedLn ind (d + 1) ("requestMessage: " ++ method.requestType ++ ",") ++
          (emittedLn ind (d + 1) ("options?: \x7b[key: string]: string\x7d): Observable<" ++ method.responseType ++ "> \x7b") ++
          (emittedLn ind (d + 1) ("let rpcRequest = <JsonRPCRequest>\x7b\"id\": \"1\", \"method\": \"" ++ service.name ++ "." ++ method.nameAsPascalCase ++ "\", \"params\": requestMessage, \"jsonrpc\": \"2.0\"\x7d;") ++
          (emittedLn ind (d + 1) ("return this.call<" ++ method.responseType ++ ">(`$\x7bthis.serviceHost\x7d/rpc`, rpcRequest, options);") ++
          emittedLnBlank ind d "\x7d")))))⟩⟩) ∧
    (∀ d ind out service method,
      printUnaryStubBatchMethodTypes ⟨d, ⟨ind, out⟩⟩ service method =
        ⟨d, ⟨ind, out ++
          (emittedLn ind d (method.functionName ++ "Batch(") ++
          (emittedLn ind (d + 1) ("requestMessages: " ++ method.requestType ++ "[],") ++
          (emittedLn ind (d + 1) ("options?: \x7b[key: string]: string\x7d): Observable<" ++ method.responseType ++ "[]> \x7b") ++
          (emittedLn ind (d + 1) ("let rpcRequests = requestMessages.map((r) => \x7breturn <JsonRPCRequest>\x7b\"id\": \"1\", \"method\": \"" ++ service.name ++ "." ++ method.nameAsPascalCase ++ "\", \"params\": r, \"jsonrpc\": \"2.0\"\x7d;\x7d);") ++
          (emittedLn ind (d + 1) ("return this.callBatch<" ++ method.responseType ++ "[]>(`$\x7bthis.serviceHost\x7d/rpc`, rpcRequests, options);") ++
          emittedLnBlank ind d "\x7d")))))⟩⟩) ∧
    normaliseFieldObjectName "GetUser" = "getUser" := by
  refine ⟨?_, ?_, ?_, by decide⟩
  · intro serviceName exportMap l ms h
    exact (methodDescriptorsOf_forall₂ serviceName exportMap l ms h).imp
      (fun _ _ h => ⟨h.2.2.1, h.1, h.2.2.2.1⟩)
  · intro d ind out service method
    simpa [unaryStubText, emittedLn, emittedLnBlank, String.append_assoc] using
      printUnaryStub_append d ind out service method
  · intro d ind out service method
    simpa [batchStubText, emittedLn, emittedLnBlank, String.append_assoc] using
      printBatchStub_append d ind out service method

/-- Witness for C7 at the `UserService.GetUser` fixture. -/
theorem stubs_use_normalized_name_and_fixed_envelope_witness :
    List.Forall₂ (fun (meth : MethodDescriptorProto) (md : RPCMethodDescriptor) =>
      md.functionName = normaliseFieldObjectName meth.name ∧
      md.nameAsPascalCase = meth.name ∧ md.serviceName = "UserService")
      [getUserMethod] [getUserStub] ∧
    printUnaryStubMethodTypes ⟨2, ⟨"", ""⟩⟩ userService getUserStub =
      ⟨2, ⟨"", "" ++
        (emittedLn "" 2 ("getUser" ++ "(") ++
        (emittedLn "" 3 ("requestMessage: " ++ "dep_used_pb.Req" ++ ",") ++
        (emittedLn "" 3 ("options?: \x7b[key: string]: string\x7d): Observable<" ++ "f_pb.Res" ++ "> \x7b") ++
        (emittedLn "" 3 ("let rpcRequest = <JsonRPCRequest>\x7b\"id\": \"1\", \"method\": \"" ++ "UserService" ++ "." ++ "GetUser" ++ "\", \"params\": requestMessage, \"jsonrpc\": \"2.0\"\x7d;") ++
        (emittedLn "" 3 ("return this.call<" ++ "f_pb.Res" ++ ">(`$\x7bthis.serviceHost\x7d/rpc`, rpcRequest, options);") ++
        emittedLnBlank "" 2 "\x7d")))))⟩⟩ ∧
    printUnaryStubBatchMethodTypes ⟨2, ⟨"", ""⟩⟩ userService getUserStub =
      ⟨2, ⟨"", "" ++
        (emittedLn "" 2 ("getUser" ++ "Batch(") ++
        (emittedLn "" 3 ("requestMessages: " ++ "dep_used_pb.Req" ++ "[],") ++
        (emittedLn "" 3 ("options?: \x7b[key: string]: string\x7d): Observable<" ++ "f_pb.Res" ++ "[]> \x7b") ++
        (emittedLn "" 3 ("let rpcRequests = requestMessages.map((r) => \x7breturn <JsonRPCRequest>\x7b\"id\": \"1\", \"method\": \"" ++ "UserService" ++ "." ++ "GetUser" ++ "\", \"params\": r, \"jsonrpc\": \"2.0\"\x7d;\x7d);") ++
        (emittedLn "" 3 ("return this.callBatch<" ++ "f_pb.Res" ++ "[]>(`$\x7bthis.serviceHost\x7d/rpc`, rpcRequests, options);") ++
        emittedLnBlank "" 2 "\x7d")))))⟩⟩ := by
  refine ⟨?_, ?_, ?_⟩
  · exact stubs_use_normalized_name_and_fixed_envelope.1 "UserService" c4ExportMap
      [getUserMethod] [getUserStub] rfl
  · exact stubs_use_normalized_name_and_fixed_envelope.2.1 2 "" "" userService getUserStub
  · exact stubs_use_normalized_name_and_fixed_envelope.2.2.1 2 "" "" userService getUserStub

theorem serviceMethods_eq_D (exportMap : ExportMap) (svc : ServiceDescriptorProto)
    (h : (serviceMethods svc exportMap).isOk = true) :
    serviceMethods svc exportMap = .ok (serviceMethodsD exportMap svc) := by
  cases hs : serviceMethods svc exportMap with
  | ok ms => simp [serviceMethodsD, hs]
  | error e => rw [hs] at h; simp [Except.isOk, Except.toBool] at h

theorem importsFold_append (ind : String) :
    ∀ (l : List ImportDescriptor) (out : String),
      List.foldl printImport ⟨0, ⟨ind, out⟩⟩ l =
        ⟨0, ⟨ind, out ++ concatTexts (l.map (fun i =>
          emittedLn ind 0 ("import * as " ++ i.ns ++ " from \"" ++ i.path ++ "\";")))⟩⟩ := by
  intro l
  induction l with
  | nil => intro out; simp [concatTexts]
  | cons i rest ih =>
    intro out
    simp only [List.foldl_cons, printImport, CodePrinter.printLn, Printer.printLn]
    rw [List.map_cons]
    simp only [concatTexts]
    rw [ih]
    simp [emittedLn, String.append_assoc]

theorem printMethodAlias_append (ind out : String) (method : RPCMethodDescriptor) :
    printMethodAlias ⟨1, ⟨ind, out⟩⟩ method = ⟨1, ⟨ind, out ++ methodAliasText ind method⟩⟩ := by
  simp [printMethodAlias, CodePrinter.printLn, CodePrinter.printEmptyLn, CodePrinter.indent,
    CodePrinter.dedent, Printer.printLn, Printer.printEmptyLn, methodAliasText, emittedLn,
    emittedLnBlank, String.append_assoc]

theorem methodAliasFold_append (ind : String) :
    ∀ (ms : List RPCMethodDescriptor) (out : String),
      List.foldl printMethodAlias ⟨1, ⟨ind, out⟩⟩ ms =
        ⟨1, ⟨ind, out ++ concatTexts (ms.map (methodAliasText ind))⟩⟩ := by
  intro ms
  induction ms with
  | nil => intro out; simp [concatTexts]
  | cons m rest ih =>
    intro out
    simp only [List.foldl_cons]
    rw [printMethodAlias_append, ih, List.map_cons]
    simp only [concatTexts]
    simp [String.append_assoc]

theorem staticFieldFold_append (ind : String) :
    ∀ (ms : List RPCMethodDescriptor) (out : String),
      List.foldl printStaticField ⟨2, ⟨ind, out⟩⟩ ms =
        ⟨2, ⟨ind, out ++ concatTexts (ms.map (fun m =>
          emittedLn ind 2 ("static readonly " ++ m.nameAsPascalCase ++ ": " ++
            m.serviceName ++ m.nameAsPascalCase ++ ";")))⟩⟩ := by
  intro ms
  induction ms with
  | nil => intro out; simp [concatTexts]
  | cons m rest ih =>
    intro out
    simp only [List.foldl_cons, printStaticField, CodePrinter.printLn, Printer.printLn]
    rw [List.map_cons]
    simp only [concatTexts]
    rw [ih]
    simp [emittedLn, String.append_assoc]

theorem serviceAliasClassBlock_append (service : ServiceDescriptorProto)
    (ms : List RPCMethodDescriptor) (ind : String) :
    ∀ (out : String),
      serviceAliasClassBlock service ms ⟨1, ⟨ind, out⟩⟩ =
        ⟨1, ⟨ind, out ++ serviceAliasClassText ind service ms⟩⟩ := by
  intro out
  simp only [serviceAliasClassBlock]
  rw [methodAliasFold_append]
  simp only [CodePrinter.printLn, CodePrinter.printEmptyLn, CodePrinter.indent,
    CodePrinter.dedent, Printer.printLn, Printer.printEmptyLn]
  norm_num
  rw [staticFieldFold_append]
  simp [serviceAliasClassText, emittedLn, emittedLnBlank, String.append_assoc]

theorem servicesAliasFold_append (exportMap : ExportMap) (ind : String) :
    ∀ (l : List ServiceDescriptorProto),
      (∀ svc ∈ l, (serviceMethods svc exportMap).isOk = true) →
      ∀ (out : String),
        servicesAliasFold exportMap l ⟨1, ⟨ind, out⟩⟩ =
          .ok ⟨1, ⟨ind, out ++ concatTexts (l.map (fun svc =>
            serviceAliasClassText ind svc (serviceMethodsD exportMap svc)))⟩⟩ := by
  intro l
  induction l with
  | nil => intro _ out; simp [servicesAliasFold, concatTexts]
  | cons s rest ih =>
    intro hres out
    have hs := serviceMethods_eq_D exportMap s (hres s (List.mem_cons_self s rest))
    simp only [servicesAliasFold, hs]
    rw [serviceAliasClassBlock_append]
    rw [ih (fun svc hsvc => hres svc (List.mem_cons_of_mem s hsvc))]
    rw [List.map_cons]
    simp only [concatTexts]
    simp [String.append_assoc]

theorem printServiceStubTypes_append (service : ServiceDescriptorProto)
    (exportMap : ExportMap) (ind : String) (ms : List RPCMethodDescriptor)
    (hms : serviceMethods service exportMap = .ok ms) :
    ∀ (out : String),
      printServiceStubTypes ⟨ind, out⟩ service exportMap =
        .ok ⟨ind, out ++ (clientStubHeaderText ind ++
          (concatTexts (ms.map (fun m =>
            if !m.requestStream && !m.responseStream then stubPairText ind service.name m
            else "")) ++
          emittedLn ind 1 "\x7d"))⟩ := by
  intro out
  simp [printServiceStubTypes, CodePrinter.printLn, CodePrinter.printEmptyLn,
    CodePrinter.indent, CodePrinter.dedent, Printer.printLn, Printer.printEmptyLn,
    hms, stubMethodsFold_append, clientStubHeaderText, emittedLn, emittedLnBlank,
    String.append_assoc]

theorem servicesStubFold_append (exportMap : ExportMap) (ind : String) :
    ∀ (l : List ServiceDescriptorProto),
      (∀ svc ∈ l, (serviceMethods svc exportMap).isOk = true) →
      ∀ (d : Nat) (out : String),
        servicesStubFold exportMap l ⟨d, ⟨ind, out⟩⟩ =
          .ok ⟨d, ⟨ind, out ++ concatTexts (l.map (fun svc =>
            serviceStubBlockText ind svc (serviceMethodsD exportMap svc)))⟩⟩ := by
  intro l
  induction l with
  | nil => intro _ d out; simp [servicesStubFold, concatTexts]
  | cons s rest ih =>
    intro hres d out
    have hs := serviceMethods_eq_D exportMap s (hres s (List.mem_cons_self s rest))
    simp only [servicesStubFold]
    rw [printServiceStubTypes_append s exportMap ind (serviceMethodsD exportMap s) hs]
    simp only [CodePrinter.printEmptyLn, Printer.printEmptyLn]
    rw [ih (fun svc hsvc => hres svc (List.mem_cons_of_mem s hsvc))]
    rw [List.map_cons]
    simp only [concatTexts]
    simp [serviceStubBlockText, emittedLn, emittedLnBlank, String.append_assoc]

/-! ## C10 -/
/-- C10: for every schema file with at least one service, the entire
generated service body — the envelope types, every service's type aliases
and class, and every service's `Client` stub class — is wrapped in a
single exported namespace named after the file's first declared service,
even when the file declares more than one service. -/
theorem whole_body_wrapped_in_first_service_namespace
    (fileDescriptor : FileDescriptorProto) (exportMap : ExportMap)
    (s0 : ServiceDescriptorProto) (rest : List ServiceDescriptorProto)
    (h : fileDescriptor.serviceList = s0 :: rest)
    (importList : List ImportDescriptor)
    (himp : RPCServiceDescriptor.imports fileDescriptor exportMap = .ok importList)
    (hres : ∀ svc ∈ fileDescriptor.serviceList, (serviceMethods svc exportMap).isOk = true) :
    generateTypescriptDefinition fileDescriptor exportMap =
      .ok (emittedLn "" 0 ("// package: " ++ fileDescriptor.package) ++
        (emittedLnBlank "" 0 ("// file: " ++ fileDescriptor.name) ++
        (concatTexts (importList.map (fun i =>
          emittedLn "" 0 ("import * as " ++ i.ns ++ " from \"" ++ i.path ++ "\";"))) ++
        (emittedLn "" 0 "import \x7bHttpClient\x7d from \"@angular/common/http\";" ++
        (emittedLn "" 0 "import \x7bObservable, throwError\x7d from \"rxjs\";" ++
        (emittedLnBlank "" 0 "import \x7bcatchError, map\x7d from \"rxjs/operators\";" ++
        (emittedLn "" 0 ("export namespace " ++ s0.name ++ " \x7b") ++
        (envelopeTypesText "" ++
        (concatTexts ((s0 :: rest).map (fun svc =>
          serviceAliasClassText "" svc (serviceMethodsD exportMap svc))) ++
        (concatTexts ((s0 :: rest).map (fun svc =>
          serviceStubBlockText "" svc (serviceMethodsD exportMap svc))) ++
        emittedLn "" 0 "\x7d")))))))))) := by
  have hres' : ∀ svc ∈ (s0 :: rest), (serviceMethods svc exportMap).isOk = true := by
    intro svc hsvc
    exact hres svc (by rw [h]; exact hsvc)
  simp only [generateTypescriptDefinition, h, himp]
  simp only [CodePrinter.printLn, CodePrinter.printEmptyLn, CodePrinter.indent,
    CodePrinter.dedent, Printer.printLn, Printer.printEmptyLn, Printer.new,
    generateIndent_zero, String.empty_append, String.append_empty, String.append_assoc,
    Nat.reduceAdd, Nat.reduceSub]
  rw [importsFold_append]
  simp only [CodePrinter.printLn, CodePrinter.printEmptyLn, CodePrinter.indent,
    CodePrinter.dedent, Printer.printLn, Printer.printEmptyLn,
    generateIndent_zero, String.empty_append, String.append_empty, String.append_assoc,
    Nat.reduceAdd, Nat.reduceSub]
  rw [servicesAliasFold_append exportMap "" (s0 :: rest) hres']
  simp only [CodePrinter.printLn, CodePrinter.printEmptyLn, CodePrinter.indent,
    CodePrinter.dedent, Printer.printLn, Printer.printEmptyLn,
    generateIndent_zero, String.empty_append, String.append_empty, String.append_assoc,
    Nat.reduceAdd, Nat.reduceSub]
  rw [servicesStubFold_append exportMap "" (s0 :: rest) hres']
  simp only [CodePrinter.printLn, CodePrinter.printEmptyLn, CodePrinter.indent,
    CodePrinter.dedent, Printer.printLn, Printer.printEmptyLn, Printer.getOutput,
    envelopeTypesText, emittedLn, emittedLnBlank,
    generateIndent_zero, String.empty_append, String.append_empty, String.append_assoc,
    Nat.reduceAdd, Nat.reduceSub]

/-- Witness for C10 at a two-service file: the single namespace is named
after the first service. -/
theorem whole_body_wrapped_in_first_service_namespace_witness :
    generateTypescriptDefinition c10fd c4ExportMap =
      .ok (emittedLn "" 0 ("// package: " ++ "pkg") ++
        (emittedLnBlank "" 0 ("// file: " ++ "f.proto") ++
        (concatTexts ([⟨"f_pb", "./f_pb"⟩].map (fun i =>
          emittedLn "" 0 ("import * as " ++ ImportDescriptor.ns i ++ " from \"" ++ ImportDescriptor.path i ++ "\";"))) ++
        (emittedLn "" 0 "import \x7bHttpClient\x7d from \"@angular/common/http\";" ++
        (emittedLn "" 0 "import \x7bObservable, throwError\x7d from \"rxjs\";" ++
        (emittedLnBlank "" 0 "import \x7bcatchError, map\x7d from \"rxjs/operators\";" ++
        (emittedLn "" 0 ("export namespace " ++ "First" ++ " \x7b") ++
        (envelopeTypesText "" ++
        (concatTexts (c10fd.serviceList.map (fun svc =>
          serviceAliasClassText "" svc (serviceMethodsD c4ExportMap svc))) ++
        (concatTexts (c10fd.serviceList.map (fun svc =>
          serviceStubBlockText "" svc (serviceMethodsD c4ExportMap svc))) ++
        emittedLn "" 0 "\x7d")))))))))) :=
  whole_body_wrapped_in_first_service_namespace c10fd c4ExportMap
    { name := "First", methodList := [
      { name := "M", inputType := ".pkg.Req", outputType := ".pkg.Res",
        clientStreaming := false, serverStreaming := false }] }
    [{ name := "Second", methodList := [
      { name := "N", inputType := ".pkg.Req", outputType := ".pkg.Res",
        clientStreaming := false, serverStreaming := false }] }]
    rfl [⟨"f_pb", "./f_pb"⟩] rfl (by decide)

end ProtoGen

